/-
Verification of the crawl-and-extract core of the `web_scarper_project`
repository (`src/main.py`, class `ScraperWorker`).

The Python worker is embedded shallowly:
* URL string helpers (`is_valid_url`, `normalize_url`, `is_internal_link`,
  `extract_base_url`) become executable Lean functions over `String`.
  String primitives (`strip`, `startswith`, `endswith`, `lower`,
  `urllib.parse` field access) are re-implemented by structural recursion
  on `List Char` so that every definition evaluates inside the kernel.
* The worker state (`visited_urls`, `queue`, the `results` dictionary) becomes
  the record `ScrapeState`.  Python sets are modelled as duplicate-free lists
  built with membership-checked insertion; only membership is observable.
* The network is an oracle `Web` mapping each URL to the number of failing
  transport attempts before the first success and to the successful response
  (content type, body length, parsed document).
* `self.running` is a one-way cancellation flag written by the GUI thread.
  Reads of the flag are serialised by a counter (`ScrapeState.clock`); with
  `stopClock` the moment the stop request becomes visible, the read with
  index `c` returns `c < stopClock`.  Once a read of the flag exits the loop
  no tracked field can change any more, so later (constant-false) reads are
  not counted.
* `scrape_page` and the `run` loop become `scrape_page`, `loopStep` and the
  iterate `steps`.  Exceptions raised inside the per-page `try` are part of
  the oracle (`parseRaises`, `imgRaises`); the handler at the end of
  `scrape_page` only emits an error signal, which is tracked in
  `errorEvents`.  Signal emissions (`signals.error`, `signals.network_error`)
  and HTTP attempts started are tracked as instrumentation fields; GUI-only
  effects (status/progress signals, sleeps) and the download side effects on
  the filesystem are not tracked.  Download options are modelled as disabled:
  they touch only untracked fields, the manifest and the filesystem.
* `download_file`'s filename derivation (sanitising, `os.path.splitext`,
  the `_N` collision loop against `os.path.exists`) is embedded separately
  with the destination directory as a finite set of already-existing names.
-/
import Mathlib

namespace WebScraper

/-! ### String primitives, re-implemented structurally

Python string operations used by the worker (`str.strip`, `str.startswith`,
`str.endswith`, `str.lower`) and the `urllib.parse` accessors are modelled on
`List Char` with structural recursion. -/

/-- Characters treated as whitespace by Python's `str.strip()` (ASCII part). -/
def isPySpace (c : Char) : Bool :=
  c = ' ' || c = '\t' || c = '\n' || c = '\r' || c = '\x0b' || c = '\x0c'

/-- `str.strip()`: drop whitespace from both ends. -/
def sTrim (s : String) : String :=
  (((s.toList.dropWhile isPySpace).reverse.dropWhile isPySpace).reverse).asString

/-- Prefix test on character lists. -/
def startsWithL : List Char → List Char → Bool
  | _, [] => true
  | [], _ :: _ => false
  | c :: cs, p :: ps => c = p && startsWithL cs ps

/-- `str.startswith(p)`. -/
def sStartsWith (s p : String) : Bool :=
  startsWithL s.toList p.toList

/-- `str.endswith(p)`. -/
def sEndsWith (s p : String) : Bool :=
  startsWithL s.toList.reverse p.toList.reverse

/-- `str.lower()` (ASCII). -/
def sLower (s : String) : String :=
  (s.toList.map Char.toLower).asString

/-- The characters after the first `"://"` marker, if any. -/
def afterSchemeSep : List Char → Option (List Char)
  | [] => none
  | ':' :: '/' :: '/' :: rest => some rest
  | _ :: rest => afterSchemeSep rest

/-- A character that ends the network-location part of a URL. -/
def isNetlocEnd (c : Char) : Bool :=
  c = '/' || c = '?' || c = '#'

/-- `urllib.parse.urlparse(u).netloc` for URLs of the form
`scheme://host...` (the only shape the worker feeds it); empty otherwise. -/
def netlocOf (u : String) : String :=
  match afterSchemeSep u.toList with
  | none => ""
  | some r => (r.takeWhile (fun c => !isNetlocEnd c)).asString

/-- `urllib.parse.urlparse(u).path` for URLs of the form `scheme://host...`:
everything from the first `/` after the host up to `?` or `#`. -/
def pathOf (u : String) : String :=
  match afterSchemeSep u.toList with
  | none => (u.toList.takeWhile (fun c => c ≠ '?' && c ≠ '#')).asString
  | some r =>
      (((r.dropWhile (fun c => !isNetlocEnd c)).takeWhile
        (fun c => c ≠ '?' && c ≠ '#'))).asString

/-- `urllib.parse.urlparse(u).scheme`: the (lowercased) part before `:`. -/
def schemeOf (u : String) : String :=
  sLower (u.toList.takeWhile (fun c => c ≠ ':')).asString

/-- Whether a relative reference carries its own scheme
(`urllib.parse` syntax: a leading alpha character, scheme characters, `:`). -/
def schemeTail : List Char → Bool
  | [] => false
  | c :: cs =>
      if c = ':' then true
      else (c.isAlphanum || c = '+' || c = '-' || c = '.') && schemeTail cs

/-- See `schemeTail`. -/
def hasScheme (r : String) : Bool :=
  match r.toList with
  | [] => false
  | c :: cs => c.isAlpha && schemeTail cs

/-- `urllib.parse.urljoin(base, rel)` restricted to the shape the worker
produces: `base` is always `extract_base_url` output, i.e. `scheme://host`
with empty path.  Protocol-relative references keep the base scheme, rooted
references are appended to the base, references with their own scheme are
returned unchanged, and bare relative references resolve against `/`. -/
def urljoin (base r : String) : String :=
  if sStartsWith r "//" then schemeOf base ++ ":" ++ r
  else if sStartsWith r "/" then base ++ r
  else if hasScheme r then r
  else base ++ "/" ++ r

/-! ### URL helpers of `ScraperWorker` (src/main.py lines 83-119) -/

/-- `ScraperWorker.extract_base_url` (lines 83-87). -/
def extract_base_url (url : String) : String :=
  schemeOf url ++ "://" ++ netlocOf url

/-- The extension deny-list of `is_valid_url` (line 96). -/
def unwanted_exts : List String :=
  [".pdf", ".doc", ".jpg", ".png", ".gif", ".zip"]

/-- `ScraperWorker.is_valid_url` (lines 89-100).  Note that the extension
test is `url.lower().endswith(ext)` on the whole URL string. -/
def is_valid_url (url : String) : Bool :=
  if !(sStartsWith url "http://" || sStartsWith url "https://") then false
  else if unwanted_exts.any (fun ext => sEndsWith (sLower url) ext) then false
  else true

/-- `ScraperWorker.normalize_url` (lines 102-112). -/
def normalize_url (url base_url : String) : String :=
  if sStartsWith url "/" then urljoin base_url url
  else if !(sStartsWith url "http://" || sStartsWith url "https://") then
    urljoin base_url url
  else url

/-- `ScraperWorker.is_internal_link` (lines 114-119). -/
def is_internal_link (url base_domain : String) : Bool :=
  let url_domain := netlocOf url
  url_domain = base_domain || sEndsWith url_domain ("." ++ base_domain)

/-! ### The worker state machine -/

/-- The parsed document of a successfully fetched HTML page, restricted to
what the tracked extraction steps read: the `href` of every `<a href>` tag in
document order (line 387) and the `src` of every `<img src>` tag (line 417).
`parseRaises` / `imgRaises` are environment nondeterminism: an exception
raised by `BeautifulSoup` parsing (line 383), respectively at the start of
the image-extraction step (lines 416-430); both land in the outer handler of
`scrape_page` (lines 508-509) carrying message `excMsg`. -/
structure PageDoc where
  hrefs : List String
  srcs : List String
  parseRaises : Bool
  imgRaises : Bool
  excMsg : String
  deriving DecidableEq

/-- A successful HTTP response: `Content-Type` header, `len(response.content)`
and the parsed document. -/
structure RespData where
  contentType : String
  contentLen : Nat
  doc : PageDoc
  deriving DecidableEq

/-- The network oracle's behaviour on one URL: `failedAttempts` consecutive
attempts raise `requests.exceptions.RequestException` with message `errMsg`
(string of the exception), then the next attempt returns `resp`.  The retry
loop (lines 329-346) gives up after 3 failed attempts. -/
structure PageFetch where
  failedAttempts : Nat
  errMsg : String
  resp : RespData
  deriving DecidableEq

/-- The network oracle. -/
def Web := String → PageFetch

/-- `options` fields read by the tracked parts of the worker:
`max_pages`, `crawl_pages`, `extract_links`, `extract_images`.
Timeout, delay, user agent, redirect and download options only influence
untracked effects (the oracle already accounts for redirect following). -/
structure Options where
  max_pages : Nat
  crawl_pages : Bool
  extract_links : Bool
  extract_images : Bool
  deriving DecidableEq

/-- The environment of one run: network oracle, configuration, and the
read-index from which on `self.running` is observed `False` (the GUI writes
the flag once, at `stop`; before any stop request `stopClock` is simply
larger than every read index that occurs). -/
structure Env where
  web : Web
  opts : Options
  stopClock : Nat

/-- The value returned by the `c`-th read of `self.running`. -/
def runningFlag (stopClock c : Nat) : Bool :=
  decide (c < stopClock)

/-- The tracked state of `ScraperWorker`.  `visited_urls` and `queue` are the
frontier (lines 74-75); `links` … `errors` are the tracked entries of the
`results` dictionary (lines 52-71), Python sets modelled as duplicate-free
lists; `errorEvents` / `networkErrorEvents` record `signals.error` /
`signals.network_error` emissions; `clock` counts reads of `self.running`
and `fetchAttempts` counts HTTP attempts started by `requests.get`. -/
structure ScrapeState where
  visited_urls : List String
  queue : List String
  links : List String
  internal_links : List String
  external_links : List String
  images : List String
  visited_pages : Nat
  total_data_size : Nat
  errors : List String
  errorEvents : List String
  networkErrorEvents : List (String × String)
  clock : Nat
  fetchAttempts : Nat
  deriving DecidableEq

/-- `set.add`: append unless already a member (membership is the only
observable of a Python set). -/
def insertSet (x : String) (l : List String) : List String :=
  if x ∈ l then l else l ++ [x]

/-- The state right after `__init__` plus `run`'s seeding of the queue
(line 515). -/
def initState (seed : String) : ScrapeState :=
  { visited_urls := [], queue := [seed], links := [], internal_links := [],
    external_links := [], images := [], visited_pages := 0,
    total_data_size := 0, errors := [], errorEvents := [],
    networkErrorEvents := [], clock := 0, fetchAttempts := 0 }

/-- The body of the link-extraction loop (lines 387-413) for one `href`
value: strip, skip empty/`javascript:`/`#` targets, normalise, validate,
record in `links` and in `internal_links`/`external_links`, and enqueue an
internal link when crawling is enabled, the page ceiling is not reached and
the URL is in neither `visited_urls` nor `queue` (lines 406-411). -/
def processLink (o : Options) (base_url base_domain : String)
    (st : ScrapeState) (href0 : String) : ScrapeState :=
  let href := sTrim href0
  if href = "" || sStartsWith href "javascript:" || sStartsWith href "#" then st
  else
    let full_url := normalize_url href base_url
    if !is_valid_url full_url then st
    else
      let st := { st with links := insertSet full_url st.links }
      if is_internal_link full_url base_domain then
        let st := { st with internal_links := insertSet full_url st.internal_links }
        if o.crawl_pages && decide (st.visited_urls.length < o.max_pages)
            && !(full_url ∈ st.visited_urls) && !(full_url ∈ st.queue) then
          { st with queue := st.queue ++ [full_url] }
        else st
      else { st with external_links := insertSet full_url st.external_links }

/-- The body of the image-extraction loop (lines 417-421) for one `src`
value (downloads disabled: lines 424-430 touch only untracked fields). -/
def processImg (base_url : String) (st : ScrapeState) (src0 : String) :
    ScrapeState :=
  let src := sTrim src0
  if src = "" then st
  else { st with images := insertSet (normalize_url src base_url) st.images }

/-- Lines 386-413: the link-extraction step, gated by `extract_links`. -/
def linksStep (o : Options) (base_url base_domain : String) (doc : PageDoc)
    (st : ScrapeState) : ScrapeState :=
  if o.extract_links then doc.hrefs.foldl (processLink o base_url base_domain) st
  else st

/-- Lines 416-430: the image-extraction step, gated by `extract_images`. -/
def imagesStep (o : Options) (base_url : String) (doc : PageDoc)
    (st : ScrapeState) : ScrapeState :=
  if o.extract_images then doc.srcs.foldl (processImg base_url) st
  else st

/-- Lines 340-344: the third consecutive `RequestException` abandons the URL:
emit `network_error`, append one entry to `results['errors']`, return. -/
def fetchFail (st : ScrapeState) (url msg : String) : ScrapeState :=
  { st with
    fetchAttempts := st.fetchAttempts + 3,
    networkErrorEvents := st.networkErrorEvents ++ [(url, msg)],
    errors := st.errors ++ ["Error accessing " ++ url ++ ": " ++ msg] }

/-- Lines 508-509: the handler of the per-page `try` emits `signals.error`
(and nothing else — in particular it does not touch `results['errors']`). -/
def scrapeExc (st : ScrapeState) (url msg : String) : ScrapeState :=
  { st with errorEvents := st.errorEvents ++ ["Error scraping " ++ url ++ ": " ++ msg] }

/-- Line 313 (`self.visited_urls.add(url)`) together with the successful
read of `self.running` on line 310. -/
def markVisited (st : ScrapeState) (url : String) : ScrapeState :=
  { st with clock := st.clock + 1, visited_urls := st.visited_urls ++ [url] }

/-- Line 353: account the attempts made by a successful fetch and add
`len(response.content)` to `results['total_data_size']`. -/
def afterFetch (st : ScrapeState) (pf : PageFetch) : ScrapeState :=
  { st with
    fetchAttempts := st.fetchAttempts + pf.failedAttempts + 1,
    total_data_size := st.total_data_size + pf.resp.contentLen }

/-- Line 498: `results['visited_pages'] += 1`. -/
def bumpPage (st : ScrapeState) : ScrapeState :=
  { st with visited_pages := st.visited_pages + 1 }

/-- `ScraperWorker.scrape_page` (lines 305-509) over the tracked state:
skip visited URLs, honour the cancellation flag, mark visited, fetch with
up to 3 attempts, account the body size, skip non-HTML responses, then run
the tracked extraction steps and finally bump `visited_pages`. -/
def scrape_page (env : Env) (st : ScrapeState) (url : String) : ScrapeState :=
  if url ∈ st.visited_urls then st
  else if !runningFlag env.stopClock st.clock then { st with clock := st.clock + 1 }
  else
    let pf := env.web url
    let st1 := markVisited st url
    if 3 ≤ pf.failedAttempts then fetchFail st1 url pf.errMsg
    else
      let st2 := afterFetch st1 pf
      if !sStartsWith pf.resp.contentType "text/html" then st2
      else
        let base_url := extract_base_url url
        let base_domain := netlocOf base_url
        if pf.resp.doc.parseRaises then scrapeExc st2 url pf.resp.doc.excMsg
        else
          let st3 := linksStep env.opts base_url base_domain pf.resp.doc st2
          if env.opts.extract_images && pf.resp.doc.imgRaises then
            scrapeExc st3 url pf.resp.doc.excMsg
          else bumpPage (imagesStep env.opts base_url pf.resp.doc st3)

/-- One test of the `while` condition of `run` (lines 518-522) followed, when
it passes, by dequeue and `scrape_page`.  The three conjuncts are evaluated
in Python's short-circuit order: queue non-empty, `self.running`,
`len(visited_urls) < max_pages`.  When the loop exits the state is frozen
(the post-loop code of `run` touches no tracked field). -/
def loopStep (env : Env) (st : ScrapeState) : ScrapeState :=
  match st.queue with
  | [] => st
  | u :: rest =>
      if !runningFlag env.stopClock st.clock then st
      else if !decide (st.visited_urls.length < env.opts.max_pages) then st
      else scrape_page env { st with queue := rest, clock := st.clock + 1 } u

/-- The state after `n` iterations of the `run` loop, started on `seed`. -/
def steps (env : Env) (seed : String) : Nat → ScrapeState
  | 0 => initState seed
  | n + 1 => loopStep env (steps env seed n)

/-! ### The frontier and validity invariants (definitions) -/

/-- The frontier invariant: the queue is duplicate-free, no queued URL is
already visited, the visited set is duplicate-free and within the ceiling. -/
def Good (mp : Nat) (st : ScrapeState) : Prop :=
  st.queue.Nodup ∧ (∀ u ∈ st.queue, u ∉ st.visited_urls) ∧
    st.visited_urls.Nodup ∧ st.visited_urls.length ≤ mp

/-- All URLs ever placed in the queue or in the link collections pass
`is_valid_url`. -/
def AllValid (st : ScrapeState) : Prop :=
  (∀ x ∈ st.queue, is_valid_url x = true) ∧
  (∀ x ∈ st.links, is_valid_url x = true) ∧
  (∀ x ∈ st.internal_links, is_valid_url x = true) ∧
  (∀ x ∈ st.external_links, is_valid_url x = true)

/-! ### Concrete demonstration environments -/

/-- An empty parsed page. -/
def plainDoc : PageDoc := ⟨[], [], false, false, ""⟩

/-- A small demonstration site: a normal HTML seed page, a URL whose three
fetch attempts all fail, a non-HTML URL, and a page whose image-extraction
step raises. -/
def webW : Web := fun u =>
  if u = "https://example.com" then
    ⟨0, "", ⟨"text/html", 7,
      ⟨["https://example.com/a", "https://other.com/x"],
        ["https://example.com/i.jpg"], false, false, ""⟩⟩⟩
  else if u = "https://example.com/bad" then
    ⟨3, "timed out", ⟨"text/html", 0, plainDoc⟩⟩
  else if u = "https://example.com/data" then
    ⟨1, "reset", ⟨"application/json", 11, plainDoc⟩⟩
  else if u = "https://example.com/boom" then
    ⟨0, "", ⟨"text/html", 5,
      ⟨["https://example.com/kept"], ["https://example.com/j.jpeg"],
        false, true, "soup broke"⟩⟩⟩
  else ⟨0, "", ⟨"text/html", 3, plainDoc⟩⟩

/-- Everything enabled, page ceiling 10. -/
def optsW : Options := ⟨10, true, true, true⟩

/-- No stop request within reach of the demonstration runs. -/
def envW : Env := ⟨webW, optsW, 1000000⟩

/-- A stop request visible from the very first flag read. -/
def envS : Env := ⟨webW, optsW, 0⟩

/-- A two-page site: the seed links to a page on a subdomain, which links
back to a page on the seed host. -/
def web4 : Web := fun u =>
  if u = "https://example.com" then
    ⟨0, "", ⟨"text/html", 10,
      ⟨["https://blog.example.com/b"], [], false, false, ""⟩⟩⟩
  else if u = "https://blog.example.com/b" then
    ⟨0, "", ⟨"text/html", 10,
      ⟨["https://example.com/a"], [], false, false, ""⟩⟩⟩
  else ⟨3, "boom", ⟨"text/html", 0, plainDoc⟩⟩

/-- Environment for the subdomain-classification run. -/
def env4 : Env := ⟨web4, optsW, 1000000⟩

/-- The spec's predicate for C5, following the spec's words: the URL's
*path* ends in one of the excluded extensions. -/
def pathEndsExcluded (url : String) : Bool :=
  unwanted_exts.any (fun ext => sEndsWith (sLower (pathOf url)) ext)

/-! ### Decimal digits of `Nat.repr`, and its injectivity

`download_file` derives collision-free filenames with `f"{name}_{counter}{ext}"`
(line 251); `str(counter)` is `Nat.repr`.  The collision loop terminates
because distinct counters give distinct filenames, which needs injectivity
of `Nat.repr`. -/

/-- The decimal digit characters of `n`, most significant first. -/
def decDigits (n : Nat) : List Char :=
  if n < 10 then [Nat.digitChar n]
  else decDigits (n / 10) ++ [Nat.digitChar (n % 10)]
decreasing_by exact Nat.div_lt_self (by omega) (by omega)

/-- The numeric value of a decimal digit character. -/
def digitVal (c : Char) : Nat := c.toNat - 48

/-- Decimal value of a digit string, given an accumulator. -/
def decValAux (a : Nat) (l : List Char) : Nat :=
  l.foldl (fun acc c => 10 * acc + digitVal c) a

/-! ### `download_file`: filename derivation (src/main.py lines 222-303)

The destination directory is modelled as the finite set of filenames that
already exist in it (`os.path.exists`, line 249); writing the downloaded
file (line 266) adds the chosen name to that set. -/

/-- `os.path.splitext` support: split a character list at its last dot. -/
def splitAtLastDot : List Char → Option (List Char × List Char)
  | [] => none
  | c :: cs =>
      match splitAtLastDot cs with
      | some (st, ex) => some (c :: st, ex)
      | none => if c = '.' then some ([], '.' :: cs) else none

/-- `os.path.splitext` on a plain basename (no directory separators, as
guaranteed by the preceding sanitisation): split at the last dot unless all
characters before it are dots. -/
def splitext (s : String) : String × String :=
  match splitAtLastDot s.toList with
  | none => (s, "")
  | some (st, ex) =>
      if st.any (fun c => c ≠ '.') then (st.asString, ex.asString) else (s, "")

/-- `re.sub(r'[\\/*?:"<>|]', '_', filename)` (line 244). -/
def sanitize (s : String) : String :=
  (s.toList.map (fun c =>
    if c = '\\' || c = '/' || c = '*' || c = '?' || c = ':' ||
        c = '"' || c = '<' || c = '>' || c = '|' then '_' else c)).asString

/-- `os.path.basename` of a POSIX path: everything after the last slash. -/
def basenameOf (p : String) : String :=
  (p.toList.foldl (fun acc c => if c = '/' then [] else acc ++ [c]) []).asString

/-- The candidate filename `f"{name}_{counter}{ext}"` (line 251). -/
def candName (name ext : String) (counter : Nat) : String :=
  name ++ "_" ++ Nat.repr counter ++ ext

/-- The `while os.path.exists(...)` loop of lines 248-252, with explicit
fuel (the Python loop runs until a candidate is free; `dir.card + 1`
candidates always contain a free one, see `exists_free_cand`). -/
def collisionLoop (dir : Finset String) (name ext : String) :
    Nat → Nat → String
  | 0, counter => candName name ext counter
  | fuel + 1, counter =>
      if candName name ext counter ∈ dir then
        collisionLoop dir name ext fuel (counter + 1)
      else candName name ext counter

/-- Lines 246-252: keep the original filename if it is free, otherwise try
`name_1`, `name_2`, … (recomputed from the original each iteration) until a
free name is found. -/
def resolveCollision (dir : Finset String) (orig : String) : String :=
  if orig ∈ dir then
    collisionLoop dir (splitext orig).1 (splitext orig).2 (dir.card + 1) 1
  else orig

/-- `download_file` (lines 222-303) at filename granularity: derive the
basename from the URL path, fall back to the synthesized
`{type}_{count}.{ext}` name (lines 233-241, supplied here as `synth`) when
the basename is empty or extensionless, sanitise, resolve collisions, and
write (adding the chosen name to the directory). -/
def download_file (dir : Finset String) (url synth : String) :
    String × Finset String :=
  let fn0 := basenameOf (pathOf url)
  let fn1 := if fn0 = "" ∨ ¬ fn0.toList.contains '.' then synth else fn0
  let fn := resolveCollision dir (sanitize fn1)
  (fn, insert fn dir)

/-! ### Generic fold helpers -/

theorem foldl_preserves {α : Type} {P : ScrapeState → Prop}
    {f : ScrapeState → α → ScrapeState}
    (hf : ∀ st a, P st → P (f st a)) :
    ∀ (l : List α) (st : ScrapeState), P st → P (l.foldl f st) := by
  intro l
  induction l with
  | nil => intro st h; exact h
  | cons a l ih => intro st h; exact ih (f st a) (hf st a h)

theorem foldl_field {α β : Type} {g : ScrapeState → β}
    {f : ScrapeState → α → ScrapeState}
    (hf : ∀ st a, g (f st a) = g st) :
    ∀ (l : List α) (st : ScrapeState), g (l.foldl f st) = g st := by
  intro l
  induction l with
  | nil => intro st; rfl
  | cons a l ih => intro st; rw [List.foldl_cons, ih, hf]

/-! ### Frame lemmas: which fields each step can touch -/

theorem mem_insertSet {u x : String} {l : List String} :
    u ∈ insertSet x l ↔ u = x ∨ u ∈ l := by
  unfold insertSet
  split
  · constructor
    · exact fun h => Or.inr h
    · rintro (rfl | h) <;> assumption
  · simp [or_comm]

theorem self_mem_insertSet (x : String) (l : List String) :
    x ∈ insertSet x l := mem_insertSet.mpr (Or.inl rfl)

theorem processLink_frame (o : Options) (bu bd : String) (st : ScrapeState)
    (h : String) :
    (processLink o bu bd st h).visited_urls = st.visited_urls ∧
    (processLink o bu bd st h).images = st.images ∧
    (processLink o bu bd st h).visited_pages = st.visited_pages ∧
    (processLink o bu bd st h).total_data_size = st.total_data_size ∧
    (processLink o bu bd st h).errors = st.errors ∧
    (processLink o bu bd st h).errorEvents = st.errorEvents ∧
    (processLink o bu bd st h).networkErrorEvents = st.networkErrorEvents ∧
    (processLink o bu bd st h).clock = st.clock ∧
    (processLink o bu bd st h).fetchAttempts = st.fetchAttempts := by
  unfold processLink
  refine ⟨?_, ?_, ?_, ?_, ?_, ?_, ?_, ?_, ?_⟩ <;> dsimp only <;>
    (repeat' split) <;> rfl

theorem processImg_frame (bu : String) (st : ScrapeState) (s : String) :
    (processImg bu st s).visited_urls = st.visited_urls ∧
    (processImg bu st s).queue = st.queue ∧
    (processImg bu st s).links = st.links ∧
    (processImg bu st s).internal_links = st.internal_links ∧
    (processImg bu st s).external_links = st.external_links ∧
    (processImg bu st s).visited_pages = st.visited_pages ∧
    (processImg bu st s).total_data_size = st.total_data_size ∧
    (processImg bu st s).errors = st.errors ∧
    (processImg bu st s).errorEvents = st.errorEvents ∧
    (processImg bu st s).networkErrorEvents = st.networkErrorEvents ∧
    (processImg bu st s).clock = st.clock ∧
    (processImg bu st s).fetchAttempts = st.fetchAttempts := by
  unfold processImg
  refine ⟨?_, ?_, ?_, ?_, ?_, ?_, ?_, ?_, ?_, ?_, ?_, ?_⟩ <;> dsimp only <;>
    (repeat' split) <;> rfl

theorem linksStep_frame (o : Options) (bu bd : String) (doc : PageDoc)
    (st : ScrapeState) :
    (linksStep o bu bd doc st).visited_urls = st.visited_urls ∧
    (linksStep o bu bd doc st).images = st.images ∧
    (linksStep o bu bd doc st).visited_pages = st.visited_pages ∧
    (linksStep o bu bd doc st).total_data_size = st.total_data_size ∧
    (linksStep o bu bd doc st).errors = st.errors ∧
    (linksStep o bu bd doc st).errorEvents = st.errorEvents ∧
    (linksStep o bu bd doc st).networkErrorEvents = st.networkErrorEvents ∧
    (linksStep o bu bd doc st).clock = st.clock ∧
    (linksStep o bu bd doc st).fetchAttempts = st.fetchAttempts := by
  unfold linksStep
  split
  · refine ⟨?_, ?_, ?_, ?_, ?_, ?_, ?_, ?_, ?_⟩ <;>
      exact foldl_field (fun st h => by
        have := processLink_frame o bu bd st h
        tauto) _ _
  · exact ⟨rfl, rfl, rfl, rfl, rfl, rfl, rfl, rfl, rfl⟩

theorem imagesStep_frame (o : Options) (bu : String) (doc : PageDoc)
    (st : ScrapeState) :
    (imagesStep o bu doc st).visited_urls = st.visited_urls ∧
    (imagesStep o bu doc st).queue = st.queue ∧
    (imagesStep o bu doc st).links = st.links ∧
    (imagesStep o bu doc st).internal_links = st.internal_links ∧
    (imagesStep o bu doc st).external_links = st.external_links ∧
    (imagesStep o bu doc st).visited_pages = st.visited_pages ∧
    (imagesStep o bu doc st).total_data_size = st.total_data_size ∧
    (imagesStep o bu doc st).errors = st.errors ∧
    (imagesStep o bu doc st).errorEvents = st.errorEvents ∧
    (imagesStep o bu doc st).networkErrorEvents = st.networkErrorEvents ∧
    (imagesStep o bu doc st).clock = st.clock ∧
    (imagesStep o bu doc st).fetchAttempts = st.fetchAttempts := by
  unfold imagesStep
  split
  · refine ⟨?_, ?_, ?_, ?_, ?_, ?_, ?_, ?_, ?_, ?_, ?_, ?_⟩ <;>
      exact foldl_field (fun st s => by
        have := processImg_frame bu st s
        tauto) _ _
  · exact ⟨rfl, rfl, rfl, rfl, rfl, rfl, rfl, rfl, rfl, rfl, rfl, rfl⟩

/-! ### The frontier invariant -/

theorem good_congr {mp : Nat} {a b : ScrapeState}
    (hq : a.queue = b.queue) (hv : a.visited_urls = b.visited_urls) :
    Good mp b → Good mp a := by
  unfold Good
  rw [hq, hv]
  exact id

theorem processLink_good {mp : Nat} {o : Options} {bu bd : String}
    {st : ScrapeState} {h : String} (hg : Good mp st) :
    Good mp (processLink o bu bd st h) := by
  obtain ⟨h1, h2, h3, h4⟩ := hg
  unfold processLink
  dsimp only
  split
  · exact ⟨h1, h2, h3, h4⟩
  split
  · exact ⟨h1, h2, h3, h4⟩
  split
  · split
    · rename_i hcond
      simp only [Bool.and_eq_true, decide_eq_true_eq, Bool.not_eq_true',
        decide_eq_false_iff_not] at hcond
      obtain ⟨⟨⟨-, -⟩, hnv⟩, hnq⟩ := hcond
      refine ⟨?_, ?_, h3, h4⟩
      · refine List.Nodup.append h1 (List.nodup_singleton _) ?_
        intro a ha hb
        rw [List.mem_singleton] at hb
        subst hb
        exact hnq ha
      · intro u hu
        rcases List.mem_append.mp hu with h | h
        · exact h2 u h
        · rw [List.mem_singleton] at h
          subst h
          exact hnv
    · exact ⟨h1, h2, h3, h4⟩
  · exact ⟨h1, h2, h3, h4⟩

theorem linksStep_good {mp : Nat} {o : Options} {bu bd : String}
    {doc : PageDoc} {st : ScrapeState} (hg : Good mp st) :
    Good mp (linksStep o bu bd doc st) := by
  unfold linksStep
  split
  · exact foldl_preserves (fun st h hp => processLink_good hp) _ _ hg
  · exact hg

theorem markVisited_good {mp : Nat} {st : ScrapeState} {url : String}
    (hq : url ∉ st.queue) (hnv : url ∉ st.visited_urls)
    (hlen : st.visited_urls.length < mp) (hg : Good mp st) :
    Good mp (markVisited st url) := by
  obtain ⟨h1, h2, h3, h4⟩ := hg
  refine ⟨h1, ?_, ?_, ?_⟩
  · intro u hu hmem
    rcases List.mem_append.mp hmem with h | h
    · exact h2 u hu h
    · rw [List.mem_singleton] at h
      subst h
      exact hq hu
  · refine List.Nodup.append h3 (List.nodup_singleton _) ?_
    intro a ha hb
    rw [List.mem_singleton] at hb
    subst hb
    exact hnv ha
  · have hl : (markVisited st url).visited_urls.length = st.visited_urls.length + 1 := by
      simp [markVisited]
    omega

theorem scrape_page_good {mp : Nat} (env : Env) (st : ScrapeState)
    (url : String) (hq : url ∉ st.queue)
    (hlen : st.visited_urls.length < mp) (hg : Good mp st) :
    Good mp (scrape_page env st url) := by
  unfold scrape_page
  dsimp only
  split
  · exact hg
  split
  · exact hg
  rename_i hnv hflag
  have g1 : Good mp (markVisited st url) := markVisited_good hq hnv hlen hg
  have g2 : Good mp (afterFetch (markVisited st url) (env.web url)) := g1
  split
  · exact g1
  split
  · exact g2
  split
  · exact g2
  split
  · exact linksStep_good g2
  exact good_congr (imagesStep_frame _ _ _ _).2.1 (imagesStep_frame _ _ _ _).1
    (linksStep_good g2)

theorem loopStep_good {mp : Nat} (env : Env) (st : ScrapeState)
    (hmp : env.opts.max_pages = mp) (hg : Good mp st) :
    Good mp (loopStep env st) := by
  unfold loopStep
  split
  · exact hg
  split
  · exact hg
  split
  · exact hg
  rename_i u rest hu hflag hlen
  obtain ⟨h1, h2, h3, h4⟩ := hg
  have hnodup := h1
  rw [hu] at hnodup h2
  have g1 : Good mp { st with queue := rest, clock := st.clock + 1 } := by
    refine ⟨(List.nodup_cons.mp hnodup).2, ?_, h3, h4⟩
    intro x hx
    exact h2 x (List.mem_cons_of_mem _ hx)
  refine scrape_page_good env _ u ?_ ?_ g1
  · exact (List.nodup_cons.mp hnodup).1
  · have hlt : st.visited_urls.length < env.opts.max_pages := by simpa using hlen
    rw [hmp] at hlt
    exact hlt

/-! ### Membership lemmas for the link-extraction fold -/

theorem processLink_mono (o : Options) (bu bd : String) (st : ScrapeState)
    (h : String) {x : String} :
    (x ∈ st.links → x ∈ (processLink o bu bd st h).links) ∧
    (x ∈ st.internal_links → x ∈ (processLink o bu bd st h).internal_links) ∧
    (x ∈ st.external_links → x ∈ (processLink o bu bd st h).external_links) ∧
    (x ∈ st.queue → x ∈ (processLink o bu bd st h).queue) := by
  unfold processLink
  dsimp only
  split
  · exact ⟨id, id, id, id⟩
  split
  · exact ⟨id, id, id, id⟩
  split
  · split
    · exact ⟨fun hx => mem_insertSet.mpr (Or.inr hx),
        fun hx => mem_insertSet.mpr (Or.inr hx), id,
        fun hx => List.mem_append_left _ hx⟩
    · exact ⟨fun hx => mem_insertSet.mpr (Or.inr hx),
        fun hx => mem_insertSet.mpr (Or.inr hx), id, id⟩
  · exact ⟨fun hx => mem_insertSet.mpr (Or.inr hx), id,
      fun hx => mem_insertSet.mpr (Or.inr hx), id⟩

theorem foldLinks_mono (o : Options) (bu bd : String) (l : List String)
    (st : ScrapeState) {x : String} :
    (x ∈ st.links → x ∈ (l.foldl (processLink o bu bd) st).links) ∧
    (x ∈ st.internal_links →
      x ∈ (l.foldl (processLink o bu bd) st).internal_links) ∧
    (x ∈ st.external_links →
      x ∈ (l.foldl (processLink o bu bd) st).external_links) ∧
    (x ∈ st.queue → x ∈ (l.foldl (processLink o bu bd) st).queue) := by
  induction l generalizing st with
  | nil => exact ⟨id, id, id, id⟩
  | cons a l ih =>
      have hp := processLink_mono o bu bd st a (x := x)
      have hi := ih (processLink o bu bd st a)
      exact ⟨fun hx => hi.1 (hp.1 hx), fun hx => hi.2.1 (hp.2.1 hx),
        fun hx => hi.2.2.1 (hp.2.2.1 hx), fun hx => hi.2.2.2 (hp.2.2.2 hx)⟩

/-- Everything the link loop adds to a link collection or to the queue has
passed `is_valid_url`, and additions to `internal_links`/`external_links`
carry the verdict of `is_internal_link` against `bd`. -/
theorem processLink_sound (o : Options) (bu bd : String) (st : ScrapeState)
    (h : String) {x : String} :
    (x ∈ (processLink o bu bd st h).links →
      x ∈ st.links ∨ is_valid_url x = true) ∧
    (x ∈ (processLink o bu bd st h).internal_links →
      x ∈ st.internal_links ∨
        (is_valid_url x = true ∧ is_internal_link x bd = true)) ∧
    (x ∈ (processLink o bu bd st h).external_links →
      x ∈ st.external_links ∨
        (is_valid_url x = true ∧ is_internal_link x bd = false)) ∧
    (x ∈ (processLink o bu bd st h).queue →
      x ∈ st.queue ∨ is_valid_url x = true) := by
  unfold processLink
  dsimp only
  split
  · exact ⟨Or.inl, Or.inl, Or.inl, Or.inl⟩
  split
  · exact ⟨Or.inl, Or.inl, Or.inl, Or.inl⟩
  rename_i hvalid
  have hv : is_valid_url (normalize_url (sTrim h) bu) = true := by
    simpa using hvalid
  split
  · rename_i hint
    split
    · refine ⟨?_, ?_, Or.inl, ?_⟩
      · intro hx
        rcases mem_insertSet.mp hx with rfl | hx
        · exact Or.inr hv
        · exact Or.inl hx
      · intro hx
        rcases mem_insertSet.mp hx with rfl | hx
        · exact Or.inr ⟨hv, hint⟩
        · exact Or.inl hx
      · intro hx
        rcases List.mem_append.mp hx with hx | hx
        · exact Or.inl hx
        · rw [List.mem_singleton] at hx
          subst hx
          exact Or.inr hv
    · refine ⟨?_, ?_, Or.inl, Or.inl⟩
      · intro hx
        rcases mem_insertSet.mp hx with rfl | hx
        · exact Or.inr hv
        · exact Or.inl hx
      · intro hx
        rcases mem_insertSet.mp hx with rfl | hx
        · exact Or.inr ⟨hv, hint⟩
        · exact Or.inl hx
  · rename_i hint
    have hext : is_internal_link (normalize_url (sTrim h) bu) bd = false :=
      Bool.not_eq_true _ ▸ Bool.of_not_eq_true hint
    refine ⟨?_, Or.inl, ?_, Or.inl⟩
    · intro hx
      rcases mem_insertSet.mp hx with rfl | hx
      · exact Or.inr hv
      · exact Or.inl hx
    · intro hx
      rcases mem_insertSet.mp hx with rfl | hx
      · exact Or.inr ⟨hv, hext⟩
      · exact Or.inl hx

theorem foldLinks_sound (o : Options) (bu bd : String) (l : List String)
    (st : ScrapeState) {x : String} :
    (x ∈ (l.foldl (processLink o bu bd) st).links →
      x ∈ st.links ∨ is_valid_url x = true) ∧
    (x ∈ (l.foldl (processLink o bu bd) st).internal_links →
      x ∈ st.internal_links ∨
        (is_valid_url x = true ∧ is_internal_link x bd = true)) ∧
    (x ∈ (l.foldl (processLink o bu bd) st).external_links →
      x ∈ st.external_links ∨
        (is_valid_url x = true ∧ is_internal_link x bd = false)) ∧
    (x ∈ (l.foldl (processLink o bu bd) st).queue →
      x ∈ st.queue ∨ is_valid_url x = true) := by
  induction l generalizing st with
  | nil => exact ⟨Or.inl, Or.inl, Or.inl, Or.inl⟩
  | cons a l ih =>
      have hp := processLink_sound o bu bd st a (x := x)
      have hi := ih (processLink o bu bd st a)
      refine ⟨?_, ?_, ?_, ?_⟩
      · intro hx
        rcases hi.1 hx with hx | hx
        · exact hp.1 hx
        · exact Or.inr hx
      · intro hx
        rcases hi.2.1 hx with hx | hx
        · exact hp.2.1 hx
        · exact Or.inr hx
      · intro hx
        rcases hi.2.2.1 hx with hx | hx
        · exact hp.2.2.1 hx
        · exact Or.inr hx
      · intro hx
        rcases hi.2.2.2 hx with hx | hx
        · exact hp.2.2.2 hx
        · exact Or.inr hx

/-- A non-skipped `href` whose normalised target is valid lands in `links`
and in the internal/external collection chosen by `is_internal_link`. -/
theorem processLink_complete (o : Options) (bu bd : String) (st : ScrapeState)
    (h u : String) (h1 : sTrim h ≠ "")
    (h2 : sStartsWith (sTrim h) "javascript:" = false)
    (h3 : sStartsWith (sTrim h) "#" = false)
    (hu : normalize_url (sTrim h) bu = u) (hv : is_valid_url u = true) :
    u ∈ (processLink o bu bd st h).links ∧
    (is_internal_link u bd = true →
      u ∈ (processLink o bu bd st h).internal_links) ∧
    (is_internal_link u bd = false →
      u ∈ (processLink o bu bd st h).external_links) := by
  unfold processLink
  dsimp only
  rw [hu, if_neg (by simp [h1, h2, h3]), if_neg (by simp [hv])]
  split
  · rename_i hint
    split
    · refine ⟨self_mem_insertSet _ _, fun _ => self_mem_insertSet _ _, ?_⟩
      intro hff
      rw [hint] at hff
      cases hff
    · refine ⟨self_mem_insertSet _ _, fun _ => self_mem_insertSet _ _, ?_⟩
      intro hff
      rw [hint] at hff
      cases hff
  · rename_i hint
    have hext : is_internal_link u bd = false :=
      Bool.not_eq_true _ ▸ Bool.of_not_eq_true hint
    refine ⟨self_mem_insertSet _ _, ?_, fun _ => self_mem_insertSet _ _⟩
    intro htt
    rw [hext] at htt
    cases htt

theorem foldLinks_complete (o : Options) (bu bd : String) (l : List String)
    (st : ScrapeState) (h u : String) (hmem : h ∈ l) (h1 : sTrim h ≠ "")
    (h2 : sStartsWith (sTrim h) "javascript:" = false)
    (h3 : sStartsWith (sTrim h) "#" = false)
    (hu : normalize_url (sTrim h) bu = u) (hv : is_valid_url u = true) :
    u ∈ (l.foldl (processLink o bu bd) st).links ∧
    (is_internal_link u bd = true →
      u ∈ (l.foldl (processLink o bu bd) st).internal_links) ∧
    (is_internal_link u bd = false →
      u ∈ (l.foldl (processLink o bu bd) st).external_links) := by
  obtain ⟨s, t, rfl⟩ := List.append_of_mem hmem
  rw [List.foldl_append, List.foldl_cons]
  have hc := processLink_complete o bu bd (s.foldl (processLink o bu bd) st)
    h u h1 h2 h3 hu hv
  have hm := foldLinks_mono o bu bd t
    (processLink o bu bd (s.foldl (processLink o bu bd) st) h) (x := u)
  exact ⟨hm.1 hc.1, fun hi => hm.2.1 (hc.2.1 hi),
    fun he => hm.2.2.1 (hc.2.2 he)⟩

/-! ### Field bookkeeping for the small transitions -/

theorem markVisited_frame (st : ScrapeState) (url : String) :
    (markVisited st url).queue = st.queue ∧
    (markVisited st url).links = st.links ∧
    (markVisited st url).internal_links = st.internal_links ∧
    (markVisited st url).external_links = st.external_links ∧
    (markVisited st url).images = st.images ∧
    (markVisited st url).visited_pages = st.visited_pages ∧
    (markVisited st url).total_data_size = st.total_data_size ∧
    (markVisited st url).errors = st.errors ∧
    (markVisited st url).errorEvents = st.errorEvents ∧
    (markVisited st url).networkErrorEvents = st.networkErrorEvents ∧
    (markVisited st url).fetchAttempts = st.fetchAttempts :=
  ⟨rfl, rfl, rfl, rfl, rfl, rfl, rfl, rfl, rfl, rfl, rfl⟩

theorem afterFetch_frame (st : ScrapeState) (pf : PageFetch) :
    (afterFetch st pf).visited_urls = st.visited_urls ∧
    (afterFetch st pf).queue = st.queue ∧
    (afterFetch st pf).links = st.links ∧
    (afterFetch st pf).internal_links = st.internal_links ∧
    (afterFetch st pf).external_links = st.external_links ∧
    (afterFetch st pf).images = st.images ∧
    (afterFetch st pf).visited_pages = st.visited_pages ∧
    (afterFetch st pf).errors = st.errors ∧
    (afterFetch st pf).errorEvents = st.errorEvents ∧
    (afterFetch st pf).networkErrorEvents = st.networkErrorEvents ∧
    (afterFetch st pf).clock = st.clock :=
  ⟨rfl, rfl, rfl, rfl, rfl, rfl, rfl, rfl, rfl, rfl, rfl⟩

theorem fetchFail_frame (st : ScrapeState) (url msg : String) :
    (fetchFail st url msg).visited_urls = st.visited_urls ∧
    (fetchFail st url msg).queue = st.queue ∧
    (fetchFail st url msg).links = st.links ∧
    (fetchFail st url msg).internal_links = st.internal_links ∧
    (fetchFail st url msg).external_links = st.external_links ∧
    (fetchFail st url msg).images = st.images ∧
    (fetchFail st url msg).visited_pages = st.visited_pages ∧
    (fetchFail st url msg).total_data_size = st.total_data_size ∧
    (fetchFail st url msg).errorEvents = st.errorEvents ∧
    (fetchFail st url msg).clock = st.clock :=
  ⟨rfl, rfl, rfl, rfl, rfl, rfl, rfl, rfl, rfl, rfl⟩

theorem scrapeExc_frame (st : ScrapeState) (url msg : String) :
    (scrapeExc st url msg).visited_urls = st.visited_urls ∧
    (scrapeExc st url msg).queue = st.queue ∧
    (scrapeExc st url msg).links = st.links ∧
    (scrapeExc st url msg).internal_links = st.internal_links ∧
    (scrapeExc st url msg).external_links = st.external_links ∧
    (scrapeExc st url msg).images = st.images ∧
    (scrapeExc st url msg).visited_pages = st.visited_pages ∧
    (scrapeExc st url msg).total_data_size = st.total_data_size ∧
    (scrapeExc st url msg).errors = st.errors ∧
    (scrapeExc st url msg).networkErrorEvents = st.networkErrorEvents ∧
    (scrapeExc st url msg).clock = st.clock ∧
    (scrapeExc st url msg).fetchAttempts = st.fetchAttempts :=
  ⟨rfl, rfl, rfl, rfl, rfl, rfl, rfl, rfl, rfl, rfl, rfl, rfl⟩

theorem bumpPage_frame (st : ScrapeState) :
    (bumpPage st).visited_urls = st.visited_urls ∧
    (bumpPage st).queue = st.queue ∧
    (bumpPage st).links = st.links ∧
    (bumpPage st).internal_links = st.internal_links ∧
    (bumpPage st).external_links = st.external_links ∧
    (bumpPage st).images = st.images ∧
    (bumpPage st).total_data_size = st.total_data_size ∧
    (bumpPage st).errors = st.errors ∧
    (bumpPage st).errorEvents = st.errorEvents ∧
    (bumpPage st).networkErrorEvents = st.networkErrorEvents ∧
    (bumpPage st).clock = st.clock ∧
    (bumpPage st).fetchAttempts = st.fetchAttempts :=
  ⟨rfl, rfl, rfl, rfl, rfl, rfl, rfl, rfl, rfl, rfl, rfl, rfl⟩

theorem linksStep_sound (o : Options) (bu bd : String) (doc : PageDoc)
    (st : ScrapeState) {x : String} :
    (x ∈ (linksStep o bu bd doc st).links →
      x ∈ st.links ∨ is_valid_url x = true) ∧
    (x ∈ (linksStep o bu bd doc st).internal_links →
      x ∈ st.internal_links ∨
        (is_valid_url x = true ∧ is_internal_link x bd = true)) ∧
    (x ∈ (linksStep o bu bd doc st).external_links →
      x ∈ st.external_links ∨
        (is_valid_url x = true ∧ is_internal_link x bd = false)) ∧
    (x ∈ (linksStep o bu bd doc st).queue →
      x ∈ st.queue ∨ is_valid_url x = true) := by
  unfold linksStep
  split
  · exact foldLinks_sound o bu bd doc.hrefs st
  · exact ⟨Or.inl, Or.inl, Or.inl, Or.inl⟩

/-- New members of the link collections and of the queue produced by one
`scrape_page` call are `is_valid_url`-accepted, and new internal/external
members carry the verdict of `is_internal_link` against the host of the
page just scraped. -/
theorem scrape_page_sound (env : Env) (st : ScrapeState) (url : String)
    {x : String} :
    (x ∈ (scrape_page env st url).links →
      x ∈ st.links ∨ is_valid_url x = true) ∧
    (x ∈ (scrape_page env st url).internal_links →
      x ∈ st.internal_links ∨ (is_valid_url x = true ∧
        is_internal_link x (netlocOf (extract_base_url url)) = true)) ∧
    (x ∈ (scrape_page env st url).external_links →
      x ∈ st.external_links ∨ (is_valid_url x = true ∧
        is_internal_link x (netlocOf (extract_base_url url)) = false)) ∧
    (x ∈ (scrape_page env st url).queue →
      x ∈ st.queue ∨ is_valid_url x = true) := by
  unfold scrape_page
  dsimp only
  split
  · exact ⟨Or.inl, Or.inl, Or.inl, Or.inl⟩
  split
  · exact ⟨Or.inl, Or.inl, Or.inl, Or.inl⟩
  split
  · exact ⟨Or.inl, Or.inl, Or.inl, Or.inl⟩
  split
  · exact ⟨Or.inl, Or.inl, Or.inl, Or.inl⟩
  split
  · exact ⟨Or.inl, Or.inl, Or.inl, Or.inl⟩
  split
  · exact linksStep_sound env.opts (extract_base_url url)
      (netlocOf (extract_base_url url)) (env.web url).resp.doc
      (afterFetch (markVisited st url) (env.web url))
  · have hs := linksStep_sound env.opts (extract_base_url url)
      (netlocOf (extract_base_url url)) (env.web url).resp.doc
      (afterFetch (markVisited st url) (env.web url)) (x := x)
    have hf := imagesStep_frame env.opts (extract_base_url url)
      (env.web url).resp.doc
      (linksStep env.opts (extract_base_url url)
        (netlocOf (extract_base_url url)) (env.web url).resp.doc
        (afterFetch (markVisited st url) (env.web url)))
    refine ⟨?_, ?_, ?_, ?_⟩
    · intro hx
      have hx2 : x ∈ (imagesStep env.opts (extract_base_url url)
          (env.web url).resp.doc
          (linksStep env.opts (extract_base_url url)
            (netlocOf (extract_base_url url)) (env.web url).resp.doc
            (afterFetch (markVisited st url) (env.web url)))).links := hx
      rw [hf.2.2.1] at hx2
      exact hs.1 hx2
    · intro hx
      have hx2 : x ∈ (imagesStep env.opts (extract_base_url url)
          (env.web url).resp.doc
          (linksStep env.opts (extract_base_url url)
            (netlocOf (extract_base_url url)) (env.web url).resp.doc
            (afterFetch (markVisited st url) (env.web url)))).internal_links := hx
      rw [hf.2.2.2.1] at hx2
      exact hs.2.1 hx2
    · intro hx
      have hx2 : x ∈ (imagesStep env.opts (extract_base_url url)
          (env.web url).resp.doc
          (linksStep env.opts (extract_base_url url)
            (netlocOf (extract_base_url url)) (env.web url).resp.doc
            (afterFetch (markVisited st url) (env.web url)))).external_links := hx
      rw [hf.2.2.2.2.1] at hx2
      exact hs.2.2.1 hx2
    · intro hx
      have hx2 : x ∈ (imagesStep env.opts (extract_base_url url)
          (env.web url).resp.doc
          (linksStep env.opts (extract_base_url url)
            (netlocOf (extract_base_url url)) (env.web url).resp.doc
            (afterFetch (markVisited st url) (env.web url)))).queue := hx
      rw [hf.2.1] at hx2
      exact hs.2.2.2 hx2

theorem scrape_page_valid (env : Env) (st : ScrapeState) (url : String)
    (hg : AllValid st) : AllValid (scrape_page env st url) := by
  obtain ⟨q, l, i, e⟩ := hg
  refine ⟨?_, ?_, ?_, ?_⟩ <;> intro x hx
  · rcases (scrape_page_sound env st url).2.2.2 hx with h | h
    · exact q x h
    · exact h
  · rcases (scrape_page_sound env st url).1 hx with h | h
    · exact l x h
    · exact h
  · rcases (scrape_page_sound env st url).2.1 hx with h | h
    · exact i x h
    · exact h.1
  · rcases (scrape_page_sound env st url).2.2.1 hx with h | h
    · exact e x h
    · exact h.1

theorem loopStep_valid (env : Env) (st : ScrapeState) (hg : AllValid st) :
    AllValid (loopStep env st) := by
  unfold loopStep
  split
  · exact hg
  split
  · exact hg
  split
  · exact hg
  rename_i u rest hq hflag hlen
  apply scrape_page_valid
  obtain ⟨q, l, i, e⟩ := hg
  refine ⟨?_, l, i, e⟩
  intro x hx
  exact q x (by rw [hq]; exact List.mem_cons_of_mem _ hx)

theorem steps_valid (env : Env) (seed : String)
    (hseed : is_valid_url seed = true) (n : Nat) :
    AllValid (steps env seed n) := by
  induction n with
  | zero =>
      refine ⟨?_, ?_, ?_, ?_⟩ <;> intro x hx
      · have hx2 : x ∈ [seed] := hx
        rw [List.mem_singleton] at hx2
        subst hx2
        exact hseed
      · exact absurd hx (List.not_mem_nil x)
      · exact absurd hx (List.not_mem_nil x)
      · exact absurd hx (List.not_mem_nil x)
  | succ n ih => exact loopStep_valid env _ ih

/-! ### Branch equations for `scrape_page` and `loopStep` -/

theorem scrape_page_skip_eq (env : Env) (st : ScrapeState) (url : String)
    (h : url ∈ st.visited_urls) : scrape_page env st url = st := by
  unfold scrape_page
  rw [if_pos h]

theorem scrape_page_stop_eq (env : Env) (st : ScrapeState) (url : String)
    (hnv : url ∉ st.visited_urls)
    (h : runningFlag env.stopClock st.clock = false) :
    scrape_page env st url = { st with clock := st.clock + 1 } := by
  unfold scrape_page
  rw [if_neg hnv, if_pos (by simp [h])]

theorem scrape_page_fail_eq (env : Env) (st : ScrapeState) (url : String)
    (hnv : url ∉ st.visited_urls)
    (hflag : runningFlag env.stopClock st.clock = true)
    (hfail : 3 ≤ (env.web url).failedAttempts) :
    scrape_page env st url =
      fetchFail (markVisited st url) url (env.web url).errMsg := by
  unfold scrape_page
  dsimp only
  rw [if_neg hnv, if_neg (by simp [hflag]), if_pos hfail]

theorem scrape_page_nonhtml_eq (env : Env) (st : ScrapeState) (url : String)
    (hnv : url ∉ st.visited_urls)
    (hflag : runningFlag env.stopClock st.clock = true)
    (hok : (env.web url).failedAttempts < 3)
    (hct : sStartsWith (env.web url).resp.contentType "text/html" = false) :
    scrape_page env st url = afterFetch (markVisited st url) (env.web url) := by
  unfold scrape_page
  dsimp only
  rw [if_neg hnv, if_neg (by simp [hflag]), if_neg (Nat.not_le.mpr hok),
    if_pos (by simp [hct])]

theorem scrape_page_parseexc_eq (env : Env) (st : ScrapeState) (url : String)
    (hnv : url ∉ st.visited_urls)
    (hflag : runningFlag env.stopClock st.clock = true)
    (hok : (env.web url).failedAttempts < 3)
    (hct : sStartsWith (env.web url).resp.contentType "text/html" = true)
    (hpr : (env.web url).resp.doc.parseRaises = true) :
    scrape_page env st url =
      scrapeExc (afterFetch (markVisited st url) (env.web url)) url
        (env.web url).resp.doc.excMsg := by
  unfold scrape_page
  dsimp only
  rw [if_neg hnv, if_neg (by simp [hflag]), if_neg (Nat.not_le.mpr hok),
    if_neg (by simp [hct]), if_pos hpr]

theorem scrape_page_imgexc_eq (env : Env) (st : ScrapeState) (url : String)
    (hnv : url ∉ st.visited_urls)
    (hflag : runningFlag env.stopClock st.clock = true)
    (hok : (env.web url).failedAttempts < 3)
    (hct : sStartsWith (env.web url).resp.contentType "text/html" = true)
    (hpr : (env.web url).resp.doc.parseRaises = false)
    (himg : (env.opts.extract_images && (env.web url).resp.doc.imgRaises) = true) :
    scrape_page env st url =
      scrapeExc
        (linksStep env.opts (extract_base_url url)
          (netlocOf (extract_base_url url)) (env.web url).resp.doc
          (afterFetch (markVisited st url) (env.web url))) url
        (env.web url).resp.doc.excMsg := by
  unfold scrape_page
  dsimp only
  rw [if_neg hnv, if_neg (by simp [hflag]), if_neg (Nat.not_le.mpr hok),
    if_neg (by simp [hct]), if_neg (by simp [hpr]), if_pos himg]

theorem scrape_page_extract_eq (env : Env) (st : ScrapeState) (url : String)
    (hnv : url ∉ st.visited_urls)
    (hflag : runningFlag env.stopClock st.clock = true)
    (hok : (env.web url).failedAttempts < 3)
    (hct : sStartsWith (env.web url).resp.contentType "text/html" = true)
    (hpr : (env.web url).resp.doc.parseRaises = false)
    (himg : (env.opts.extract_images && (env.web url).resp.doc.imgRaises) = false) :
    scrape_page env st url =
      bumpPage
        (imagesStep env.opts (extract_base_url url) (env.web url).resp.doc
          (linksStep env.opts (extract_base_url url)
            (netlocOf (extract_base_url url)) (env.web url).resp.doc
            (afterFetch (markVisited st url) (env.web url)))) := by
  unfold scrape_page
  dsimp only
  rw [if_neg hnv, if_neg (by simp [hflag]), if_neg (Nat.not_le.mpr hok),
    if_neg (by simp [hct]), if_neg (by simp [hpr]), if_neg (by simp [himg])]

theorem loopStep_nil_eq (env : Env) (st : ScrapeState) (h : st.queue = []) :
    loopStep env st = st := by
  unfold loopStep
  split
  · rfl
  · rename_i u rest hq
    rw [h] at hq
    exact absurd hq (List.noConfusion)

theorem loopStep_stop_eq (env : Env) (st : ScrapeState)
    (h : runningFlag env.stopClock st.clock = false) :
    loopStep env st = st := by
  unfold loopStep
  split
  · rfl
  · rw [if_pos (by simp [h])]

theorem loopStep_full_eq (env : Env) (st : ScrapeState)
    (h : ¬ st.visited_urls.length < env.opts.max_pages) :
    loopStep env st = st := by
  unfold loopStep
  split
  · rfl
  · split
    · rfl
    · rw [if_pos (by simp [h])]

theorem loopStep_proc_eq (env : Env) (st : ScrapeState) (u : String)
    (rest : List String) (hq : st.queue = u :: rest)
    (hflag : runningFlag env.stopClock st.clock = true)
    (hlen : st.visited_urls.length < env.opts.max_pages) :
    loopStep env st =
      scrape_page env { st with queue := rest, clock := st.clock + 1 } u := by
  unfold loopStep
  split
  · rename_i hq0
    rw [hq0] at hq
    exact absurd hq (List.noConfusion)
  · rename_i u0 rest0 hq0
    rw [hq0] at hq
    obtain ⟨rfl, rfl⟩ : u0 = u ∧ rest0 = rest := by
      injection hq with h1 h2
      exact ⟨h1, h2⟩
    rw [if_neg (by simp [hflag]), if_neg (by simp [hlen])]

/-- `scrape_page` either leaves `visited_urls` unchanged or appends exactly
the scraped URL, and only when it was not yet visited. -/
theorem scrape_page_visited_shape (env : Env) (st : ScrapeState)
    (url : String) :
    (scrape_page env st url).visited_urls = st.visited_urls ∨
    (url ∉ st.visited_urls ∧
      (scrape_page env st url).visited_urls = st.visited_urls ++ [url]) := by
  unfold scrape_page
  dsimp only
  split
  · exact Or.inl rfl
  split
  · exact Or.inl rfl
  rename_i hnv hflag
  refine Or.inr ⟨hnv, ?_⟩
  split
  · rfl
  split
  · rfl
  split
  · rfl
  split
  · exact (linksStep_frame env.opts (extract_base_url url)
      (netlocOf (extract_base_url url)) (env.web url).resp.doc
      (afterFetch (markVisited st url) (env.web url))).1
  · exact ((imagesStep_frame env.opts (extract_base_url url)
        (env.web url).resp.doc
        (linksStep env.opts (extract_base_url url)
          (netlocOf (extract_base_url url)) (env.web url).resp.doc
          (afterFetch (markVisited st url) (env.web url)))).1).trans
      ((linksStep_frame env.opts (extract_base_url url)
        (netlocOf (extract_base_url url)) (env.web url).resp.doc
        (afterFetch (markVisited st url) (env.web url))).1)

/-- One `scrape_page` call starts at most 3 HTTP attempts. -/
theorem scrape_page_attempts_le (env : Env) (st : ScrapeState)
    (url : String) :
    (scrape_page env st url).fetchAttempts ≤ st.fetchAttempts + 3 := by
  unfold scrape_page
  dsimp only
  split
  · exact Nat.le_add_right _ 3
  split
  · exact Nat.le_add_right _ 3
  split
  · exact Nat.le_refl _
  rename_i hnv hflag hok
  have hfa : (env.web url).failedAttempts < 3 := Nat.lt_of_not_le hok
  have hle : st.fetchAttempts + (env.web url).failedAttempts + 1 ≤
      st.fetchAttempts + 3 := by omega
  split
  · exact hle
  split
  · exact hle
  split
  · have heq := (linksStep_frame env.opts (extract_base_url url)
      (netlocOf (extract_base_url url)) (env.web url).resp.doc
      (afterFetch (markVisited st url) (env.web url))).2.2.2.2.2.2.2.2
    exact heq.le.trans hle
  · have heq1 := (imagesStep_frame env.opts (extract_base_url url)
      (env.web url).resp.doc
      (linksStep env.opts (extract_base_url url)
        (netlocOf (extract_base_url url)) (env.web url).resp.doc
        (afterFetch (markVisited st url) (env.web url)))).2.2.2.2.2.2.2.2.2.2.2
    have heq2 := (linksStep_frame env.opts (extract_base_url url)
      (netlocOf (extract_base_url url)) (env.web url).resp.doc
      (afterFetch (markVisited st url) (env.web url))).2.2.2.2.2.2.2.2
    exact ((heq1.trans heq2).le).trans hle

/-- `visited_pages` moves only by the final increment of the full
extraction path: it stays put unless the fetch succeeded, the response was
HTML and no extraction exception fired, in which case it gains exactly 1. -/
theorem scrape_page_pages_char (env : Env) (st : ScrapeState)
    (url : String) :
    (scrape_page env st url).visited_pages = st.visited_pages ∨
    ((scrape_page env st url).visited_pages = st.visited_pages + 1 ∧
      url ∉ st.visited_urls ∧ runningFlag env.stopClock st.clock = true ∧
      (env.web url).failedAttempts < 3 ∧
      sStartsWith (env.web url).resp.contentType "text/html" = true ∧
      (env.web url).resp.doc.parseRaises = false ∧
      (env.opts.extract_images && (env.web url).resp.doc.imgRaises) = false) := by
  unfold scrape_page
  dsimp only
  split
  · exact Or.inl rfl
  split
  · exact Or.inl rfl
  rename_i hnv hflagB
  have hflag : runningFlag env.stopClock st.clock = true := by
    simpa using hflagB
  split
  · exact Or.inl rfl
  rename_i hok
  have hfa : (env.web url).failedAttempts < 3 := Nat.lt_of_not_le hok
  split
  · exact Or.inl rfl
  rename_i hctB
  have hct : sStartsWith (env.web url).resp.contentType "text/html" = true := by
    simpa using hctB
  split
  · exact Or.inl rfl
  rename_i hprB
  have hpr : (env.web url).resp.doc.parseRaises = false := by
    simpa using hprB
  split
  · rename_i himg
    refine Or.inl ?_
    exact ((linksStep_frame env.opts (extract_base_url url)
      (netlocOf (extract_base_url url)) (env.web url).resp.doc
      (afterFetch (markVisited st url) (env.web url))).2.2.1)
  · rename_i himgB
    have himg : (env.opts.extract_images && (env.web url).resp.doc.imgRaises)
        = false := by simpa using himgB
    refine Or.inr ⟨?_, hnv, hflag, hfa, hct, hpr, himg⟩
    have heq1 := (imagesStep_frame env.opts (extract_base_url url)
      (env.web url).resp.doc
      (linksStep env.opts (extract_base_url url)
        (netlocOf (extract_base_url url)) (env.web url).resp.doc
        (afterFetch (markVisited st url) (env.web url)))).2.2.2.2.2.1
    have heq2 := (linksStep_frame env.opts (extract_base_url url)
      (netlocOf (extract_base_url url)) (env.web url).resp.doc
      (afterFetch (markVisited st url) (env.web url))).2.2.1
    show (imagesStep env.opts (extract_base_url url) (env.web url).resp.doc
      (linksStep env.opts (extract_base_url url)
        (netlocOf (extract_base_url url)) (env.web url).resp.doc
        (afterFetch (markVisited st url) (env.web url)))).visited_pages + 1 =
      st.visited_pages + 1
    rw [heq1, heq2]
    rfl

/-- Once a read of the cancellation flag returns `False`, `loopStep` can
change nothing any more: the flag is one-way and the clock is frozen. -/
theorem steps_frozen (env : Env) (seed : String) (n : Nat)
    (hstop : env.stopClock ≤ (steps env seed n).clock) :
    ∀ m, n ≤ m → steps env seed m = steps env seed n := by
  intro m hm
  induction m with
  | zero =>
      have : n = 0 := Nat.le_zero.mp hm
      rw [this]
  | succ m ih =>
      rcases Nat.lt_or_ge n (m + 1) with h | h
      · have hnm : n ≤ m := Nat.lt_succ_iff.mp h
        have hsm := ih hnm
        show loopStep env (steps env seed m) = steps env seed n
        rw [hsm]
        exact loopStep_stop_eq env _ (by
          unfold runningFlag
          simp only [decide_eq_false_iff_not]
          omega)
      · have : n = m + 1 := Nat.le_antisymm (Nat.le_of_lt_succ (Nat.lt_succ_of_le hm)) h
        rw [this]

theorem toDigitsCore_eq_decDigits :
    ∀ (fuel n : Nat) (ds : List Char), n < 10 ^ fuel → 0 < fuel →
      Nat.toDigitsCore 10 fuel n ds = decDigits n ++ ds := by
  intro fuel
  induction fuel with
  | zero =>
      intro n ds h h0
      exact absurd h0 (Nat.lt_irrefl 0)
  | succ f ih =>
      intro n ds h h0
      show (if n / 10 = 0 then Nat.digitChar (n % 10) :: ds
        else Nat.toDigitsCore 10 f (n / 10) (Nat.digitChar (n % 10) :: ds)) =
        decDigits n ++ ds
      by_cases hd : n / 10 = 0
      · have hn : n < 10 := by omega
        rw [if_pos hd, decDigits, if_pos hn, Nat.mod_eq_of_lt hn,
          List.singleton_append]
      · have hn : ¬ n < 10 := by omega
        have hdiv : n / 10 < 10 ^ f := by
          rw [Nat.div_lt_iff_lt_mul (by omega : 0 < 10)]
          calc n < 10 ^ (f + 1) := h
            _ = 10 ^ f * 10 := by rw [Nat.pow_succ]
        have hf : 0 < f := by
          rcases Nat.eq_zero_or_pos f with rfl | hpos
          · rw [Nat.pow_zero] at hdiv
            omega
          · exact hpos
        rw [if_neg hd, ih (n / 10) _ hdiv hf]
        have hsplit : decDigits n =
            decDigits (n / 10) ++ [Nat.digitChar (n % 10)] := by
          rw [decDigits]
          rw [if_neg hn]
        rw [hsplit, List.append_assoc, List.singleton_append]

theorem repr_eq_decDigits (n : Nat) :
    Nat.repr n = (decDigits n).asString := by
  show (Nat.toDigits 10 n).asString = (decDigits n).asString
  unfold Nat.toDigits
  rw [toDigitsCore_eq_decDigits (n + 1) n []
    (lt_of_lt_of_le (Nat.lt_pow_self (by omega) n)
      (Nat.pow_le_pow_right (by omega) (Nat.le_succ n))) (Nat.succ_pos n),
    List.append_nil]

theorem decValAux_append_singleton (a : Nat) (l : List Char) (c : Char) :
    decValAux a (l ++ [c]) = 10 * decValAux a l + digitVal c := by
  simp [decValAux, List.foldl_append]

theorem digitVal_digitChar {d : Nat} (h : d < 10) :
    digitVal (Nat.digitChar d) = d := by
  interval_cases d <;> rfl

theorem decValAux_decDigits (n : Nat) : decValAux 0 (decDigits n) = n := by
  induction n using Nat.strong_induction_on with
  | _ n ih =>
      rw [decDigits]
      split
      · rename_i h
        simp [decValAux, digitVal_digitChar h]
      · rename_i h
        rw [decValAux_append_singleton,
          ih (n / 10) (Nat.div_lt_self (by omega) (by omega)),
          digitVal_digitChar (Nat.mod_lt n (by omega))]
        omega

theorem decDigits_injective : Function.Injective decDigits := by
  intro m n h
  have hm := decValAux_decDigits m
  rw [h, decValAux_decDigits] at hm
  exact hm.symm

theorem repr_injective : Function.Injective Nat.repr := by
  intro m n h
  rw [repr_eq_decDigits, repr_eq_decDigits] at h
  exact decDigits_injective (List.asString_inj.mp h)

theorem candName_injective (name ext : String) :
    Function.Injective (candName name ext) := by
  intro i j h
  unfold candName at h
  have h2 := congrArg String.data h
  simp only [String.data_append] at h2
  have h3 := List.append_cancel_right h2
  have h4 := List.append_cancel_left h3
  exact repr_injective (String.ext h4)

theorem exists_free_cand (dir : Finset String) (name ext : String)
    (counter : Nat) :
    ∃ k, k < dir.card + 1 ∧ candName name ext (counter + k) ∉ dir := by
  by_contra hall
  push_neg at hall
  have hsub : (Finset.range (dir.card + 1)).image
      (fun k => candName name ext (counter + k)) ⊆ dir := by
    intro x hx
    rw [Finset.mem_image] at hx
    obtain ⟨k, hk, rfl⟩ := hx
    exact hall k (Finset.mem_range.mp hk)
  have hcard := Finset.card_le_card hsub
  rw [Finset.card_image_of_injOn (fun a _ b _ hab => by
    have := candName_injective name ext hab
    omega), Finset.card_range] at hcard
  omega

theorem collisionLoop_not_mem (dir : Finset String) (name ext : String) :
    ∀ (fuel counter : Nat),
      (∃ k, k < fuel ∧ candName name ext (counter + k) ∉ dir) →
      collisionLoop dir name ext fuel counter ∉ dir := by
  intro fuel
  induction fuel with
  | zero =>
      rintro counter ⟨k, hk, -⟩
      exact absurd hk (Nat.not_lt_zero k)
  | succ f ih =>
      rintro counter ⟨k, hk, hfree⟩
      show (if candName name ext counter ∈ dir then
        collisionLoop dir name ext f (counter + 1)
        else candName name ext counter) ∉ dir
      split
      · rename_i hmem
        apply ih
        rcases k with _ | k
        · rw [Nat.add_zero] at hfree
          exact absurd hmem hfree
        · refine ⟨k, by omega, ?_⟩
          have harg : counter + 1 + k = counter + (k + 1) := by omega
          rw [harg]
          exact hfree
      · rename_i hmem
        exact hmem

/-- The collision loop never chooses an existing filename: downloads never
silently overwrite a file already in the destination directory. -/
theorem resolveCollision_not_mem (dir : Finset String) (orig : String) :
    resolveCollision dir orig ∉ dir := by
  unfold resolveCollision
  split
  · exact collisionLoop_not_mem dir _ _ _ 1 (exists_free_cand dir _ _ 1)
  · assumption

theorem steps_good (env : Env) (seed : String) (n : Nat) :
    Good env.opts.max_pages (steps env seed n) := by
  induction n with
  | zero =>
      refine ⟨List.nodup_singleton _, ?_, List.nodup_nil, Nat.zero_le _⟩
      intro u hu
      exact List.not_mem_nil u
  | succ n ih => exact loopStep_good env _ rfl ih

theorem loopStep_visited_le (env : Env) (st : ScrapeState) :
    (loopStep env st).visited_urls.length ≤ st.visited_urls.length + 1 := by
  unfold loopStep
  split
  · exact Nat.le_succ _
  split
  · exact Nat.le_succ _
  split
  · exact Nat.le_succ _
  rename_i u rest hq hflag hlen
  rcases scrape_page_visited_shape env
      { st with queue := rest, clock := st.clock + 1 } u with h | ⟨-, h⟩
  · rw [h]
    exact Nat.le_succ _
  · rw [h]
    simp

theorem loopStep_fetch_guard (env : Env) (st : ScrapeState) :
    (loopStep env st).fetchAttempts ≠ st.fetchAttempts →
    st.visited_urls.length < env.opts.max_pages := by
  unfold loopStep
  split
  · exact fun hne => absurd rfl hne
  split
  · exact fun hne => absurd rfl hne
  split
  · exact fun hne => absurd rfl hne
  rename_i u rest hq hflag hlen
  intro hne
  simpa using hlen

theorem scrapeExc_errorEvents (st : ScrapeState) (url msg : String) :
    (scrapeExc st url msg).errorEvents =
      st.errorEvents ++ ["Error scraping " ++ url ++ ": " ++ msg] := rfl

theorem foldLinks_queue_extend (o : Options) (bu bd : String)
    (l : List String) (st : ScrapeState) :
    ∃ t, (l.foldl (processLink o bu bd) st).queue = st.queue ++ t := by
  induction l generalizing st with
  | nil => exact ⟨[], by simp⟩
  | cons a l ih =>
      obtain ⟨t1, h1⟩ : ∃ t1, (processLink o bu bd st a).queue =
          st.queue ++ t1 := by
        unfold processLink
        dsimp only
        split
        · exact ⟨[], by simp⟩
        split
        · exact ⟨[], by simp⟩
        split
        · split
          · exact ⟨_, rfl⟩
          · exact ⟨[], by simp⟩
        · exact ⟨[], by simp⟩
      obtain ⟨t2, h2⟩ := ih (processLink o bu bd st a)
      exact ⟨t1 ++ t2, by rw [List.foldl_cons, h2, h1, List.append_assoc]⟩

theorem linksStep_queue_extend (o : Options) (bu bd : String)
    (doc : PageDoc) (st : ScrapeState) :
    ∃ t, (linksStep o bu bd doc st).queue = st.queue ++ t := by
  unfold linksStep
  split
  · exact foldLinks_queue_extend o bu bd doc.hrefs st
  · exact ⟨[], (List.append_nil _).symm⟩

/-- `scrape_page` only ever appends to the queue. -/
theorem scrape_page_queue_extend (env : Env) (st : ScrapeState)
    (url : String) :
    ∃ t, (scrape_page env st url).queue = st.queue ++ t := by
  unfold scrape_page
  dsimp only
  split
  · exact ⟨[], (List.append_nil _).symm⟩
  split
  · exact ⟨[], (List.append_nil _).symm⟩
  split
  · exact ⟨[], (List.append_nil _).symm⟩
  split
  · exact ⟨[], (List.append_nil _).symm⟩
  split
  · exact ⟨[], (List.append_nil _).symm⟩
  split
  · exact linksStep_queue_extend env.opts (extract_base_url url)
      (netlocOf (extract_base_url url)) (env.web url).resp.doc
      (afterFetch (markVisited st url) (env.web url))
  · obtain ⟨t, ht⟩ := linksStep_queue_extend env.opts (extract_base_url url)
      (netlocOf (extract_base_url url)) (env.web url).resp.doc
      (afterFetch (markVisited st url) (env.web url))
    refine ⟨t, ?_⟩
    show (imagesStep env.opts (extract_base_url url) (env.web url).resp.doc
      (linksStep env.opts (extract_base_url url)
        (netlocOf (extract_base_url url)) (env.web url).resp.doc
        (afterFetch (markVisited st url) (env.web url)))).queue =
      st.queue ++ t
    rw [(imagesStep_frame env.opts (extract_base_url url)
      (env.web url).resp.doc
      (linksStep env.opts (extract_base_url url)
        (netlocOf (extract_base_url url)) (env.web url).resp.doc
        (afterFetch (markVisited st url) (env.web url)))).2.1]
    exact ht

/-- When a page reaches link extraction (fetch succeeded, HTML, parsing did
not raise, `extract_links` on), every non-skipped valid link of the page is
present in the final collections — even if the later image-extraction step
raises. -/
theorem scrape_page_complete_mem (env : Env) (st : ScrapeState)
    (url href u : String) (hnv : url ∉ st.visited_urls)
    (hflag : runningFlag env.stopClock st.clock = true)
    (hok : (env.web url).failedAttempts < 3)
    (hct : sStartsWith (env.web url).resp.contentType "text/html" = true)
    (hpr : (env.web url).resp.doc.parseRaises = false)
    (hlinks : env.opts.extract_links = true)
    (hmem : href ∈ (env.web url).resp.doc.hrefs)
    (h1 : sTrim href ≠ "")
    (h2 : sStartsWith (sTrim href) "javascript:" = false)
    (h3 : sStartsWith (sTrim href) "#" = false)
    (hu : normalize_url (sTrim href) (extract_base_url url) = u)
    (hv : is_valid_url u = true) :
    u ∈ (scrape_page env st url).links ∧
    (is_internal_link u (netlocOf (extract_base_url url)) = true →
      u ∈ (scrape_page env st url).internal_links) ∧
    (is_internal_link u (netlocOf (extract_base_url url)) = false →
      u ∈ (scrape_page env st url).external_links) := by
  have hfold := foldLinks_complete env.opts (extract_base_url url)
    (netlocOf (extract_base_url url)) (env.web url).resp.doc.hrefs
    (afterFetch (markVisited st url) (env.web url)) href u hmem h1 h2 h3 hu hv
  have hls : u ∈ (linksStep env.opts (extract_base_url url)
      (netlocOf (extract_base_url url)) (env.web url).resp.doc
      (afterFetch (markVisited st url) (env.web url))).links ∧
      (is_internal_link u (netlocOf (extract_base_url url)) = true →
        u ∈ (linksStep env.opts (extract_base_url url)
          (netlocOf (extract_base_url url)) (env.web url).resp.doc
          (afterFetch (markVisited st url) (env.web url))).internal_links) ∧
      (is_internal_link u (netlocOf (extract_base_url url)) = false →
        u ∈ (linksStep env.opts (extract_base_url url)
          (netlocOf (extract_base_url url)) (env.web url).resp.doc
          (afterFetch (markVisited st url) (env.web url))).external_links) := by
    unfold linksStep
    rw [if_pos hlinks]
    exact hfold
  by_cases himg :
      (env.opts.extract_images && (env.web url).resp.doc.imgRaises) = true
  · rw [scrape_page_imgexc_eq env st url hnv hflag hok hct hpr himg]
    exact hls
  · have himgf : (env.opts.extract_images &&
        (env.web url).resp.doc.imgRaises) = false := by
      simpa using himg
    rw [scrape_page_extract_eq env st url hnv hflag hok hct hpr himgf]
    have hf := imagesStep_frame env.opts (extract_base_url url)
      (env.web url).resp.doc
      (linksStep env.opts (extract_base_url url)
        (netlocOf (extract_base_url url)) (env.web url).resp.doc
        (afterFetch (markVisited st url) (env.web url)))
    refine ⟨?_, ?_, ?_⟩
    · show u ∈ (imagesStep env.opts (extract_base_url url)
        (env.web url).resp.doc
        (linksStep env.opts (extract_base_url url)
          (netlocOf (extract_base_url url)) (env.web url).resp.doc
          (afterFetch (markVisited st url) (env.web url)))).links
      rw [hf.2.2.1]
      exact hls.1
    · intro hint
      show u ∈ (imagesStep env.opts (extract_base_url url)
        (env.web url).resp.doc
        (linksStep env.opts (extract_base_url url)
          (netlocOf (extract_base_url url)) (env.web url).resp.doc
          (afterFetch (markVisited st url) (env.web url)))).internal_links
      rw [hf.2.2.2.1]
      exact hls.2.1 hint
    · intro hext
      show u ∈ (imagesStep env.opts (extract_base_url url)
        (env.web url).resp.doc
        (linksStep env.opts (extract_base_url url)
          (netlocOf (extract_base_url url)) (env.web url).resp.doc
          (afterFetch (markVisited st url) (env.web url)))).external_links
      rw [hf.2.2.2.2.1]
      exact hls.2.2 hext

/-! ### The claims -/

/-- C1: for every run of the crawl loop, the visited set never contains
duplicates and its size never exceeds the configured `max_pages`; one loop
iteration (one `scrape_page` call) adds at most one URL to it, and an
iteration starts a fetch only while `|visited| < max_pages`. -/
theorem C1_visited_nodup_bounded (env : Env) (seed : String) (n : Nat) :
    ((steps env seed n).visited_urls).Nodup ∧
    (steps env seed n).visited_urls.length ≤ env.opts.max_pages ∧
    (steps env seed (n + 1)).visited_urls.length ≤
      (steps env seed n).visited_urls.length + 1 ∧
    ((steps env seed (n + 1)).fetchAttempts ≠
        (steps env seed n).fetchAttempts →
      (steps env seed n).visited_urls.length < env.opts.max_pages) ∧
    (steps env seed (n + 1) ≠ steps env seed n →
      (steps env seed n).visited_urls.length < env.opts.max_pages) := by
  obtain ⟨-, -, hnd, hlen⟩ := steps_good env seed n
  refine ⟨hnd, hlen, loopStep_visited_le env (steps env seed n),
    loopStep_fetch_guard env (steps env seed n), ?_⟩
  intro hne
  by_contra hge
  exact hne (loopStep_full_eq env (steps env seed n) hge)

theorem C1_witness :
    ((steps envW "https://example.com" 1).visited_urls).Nodup ∧
    (steps envW "https://example.com" 1).visited_urls.length ≤
      envW.opts.max_pages ∧
    (steps envW "https://example.com" 2).visited_urls.length ≤
      (steps envW "https://example.com" 1).visited_urls.length + 1 ∧
    ((steps envW "https://example.com" 2).fetchAttempts ≠
        (steps envW "https://example.com" 1).fetchAttempts →
      (steps envW "https://example.com" 1).visited_urls.length <
        envW.opts.max_pages) ∧
    (steps envW "https://example.com" 2 ≠ steps envW "https://example.com" 1 →
      (steps envW "https://example.com" 1).visited_urls.length <
        envW.opts.max_pages) :=
  C1_visited_nodup_bounded envW "https://example.com" 1

/-- C2: at every point of a run the work queue is duplicate-free and
disjoint from the visited set. -/
theorem C2_queue_disjoint (env : Env) (seed : String) (n : Nat) :
    ((steps env seed n).queue).Nodup ∧
    ∀ u ∈ (steps env seed n).queue, u ∉ (steps env seed n).visited_urls := by
  obtain ⟨hnd, hdisj, -, -⟩ := steps_good env seed n
  exact ⟨hnd, hdisj⟩

theorem C2_witness :
    ((steps envW "https://example.com" 1).queue).Nodup ∧
    ∀ u ∈ (steps envW "https://example.com" 1).queue,
      u ∉ (steps envW "https://example.com" 1).visited_urls :=
  C2_queue_disjoint envW "https://example.com" 1

/-- C3: a URL whose fetch keeps failing is abandoned after exactly 3
attempts: one entry is appended to the error list, one network-error event
is emitted, the visited-pages counter and all result collections are
untouched, and the loop proceeds to the next queued URL; in general no
`scrape_page` call ever starts more than 3 HTTP attempts. -/
theorem C3_retry_abandons (env : Env) (s : ScrapeState) (url : String)
    (rest : List String) (hq : s.queue = url :: rest)
    (hflag1 : runningFlag env.stopClock s.clock = true)
    (hflag2 : runningFlag env.stopClock (s.clock + 1) = true)
    (hlen : s.visited_urls.length < env.opts.max_pages)
    (hnv : url ∉ s.visited_urls)
    (hfail : 3 ≤ (env.web url).failedAttempts) :
    (loopStep env s).errors = s.errors ++
      ["Error accessing " ++ url ++ ": " ++ (env.web url).errMsg] ∧
    (loopStep env s).networkErrorEvents =
      s.networkErrorEvents ++ [(url, (env.web url).errMsg)] ∧
    (loopStep env s).visited_pages = s.visited_pages ∧
    (loopStep env s).fetchAttempts = s.fetchAttempts + 3 ∧
    (loopStep env s).queue = rest ∧
    (loopStep env s).links = s.links ∧
    (loopStep env s).internal_links = s.internal_links ∧
    (loopStep env s).external_links = s.external_links ∧
    (loopStep env s).images = s.images ∧
    (loopStep env s).total_data_size = s.total_data_size ∧
    (∀ (st2 : ScrapeState) (u2 : String),
      (scrape_page env st2 u2).fetchAttempts ≤ st2.fetchAttempts + 3) := by
  rw [loopStep_proc_eq env s url rest hq hflag1 hlen,
    scrape_page_fail_eq env { s with queue := rest, clock := s.clock + 1 }
      url hnv hflag2 hfail]
  exact ⟨rfl, rfl, rfl, rfl, rfl, rfl, rfl, rfl, rfl, rfl,
    fun st2 u2 => scrape_page_attempts_le env st2 u2⟩

/-- C4 counterexample: in the crawl of `env4` with seed host `example.com`,
the page `https://blog.example.com/b` is visited; the link
`https://example.com/a` found on it has host equal to the seed host, yet it
is classified external — `scrape_page` classifies against the host of the
page being scraped, not against the seed host. -/
theorem C4_counterexample :
    netlocOf "https://example.com" = "example.com" ∧
    netlocOf "https://example.com/a" = "example.com" ∧
    "https://blog.example.com/b" ∈
      (steps env4 "https://example.com" 2).visited_urls ∧
    "https://example.com/a" ∈
      (steps env4 "https://example.com" 2).external_links ∧
    "https://example.com/a" ∉
      (steps env4 "https://example.com" 2).internal_links := by
  decide

/-- C4 (amended): a link extracted on a page is classified internal exactly
when its host equals the host of that page or is a subdomain of it (exact
suffix match on `"." ++ host`); the reference host is the scraped page's
host, not the seed host. -/
theorem C4_internal_iff (env : Env) (st : ScrapeState) (url href u : String)
    (hnv : url ∉ st.visited_urls)
    (hflag : runningFlag env.stopClock st.clock = true)
    (hok : (env.web url).failedAttempts < 3)
    (hct : sStartsWith (env.web url).resp.contentType "text/html" = true)
    (hpr : (env.web url).resp.doc.parseRaises = false)
    (hlinks : env.opts.extract_links = true)
    (hmem : href ∈ (env.web url).resp.doc.hrefs)
    (h1 : sTrim href ≠ "")
    (h2 : sStartsWith (sTrim href) "javascript:" = false)
    (h3 : sStartsWith (sTrim href) "#" = false)
    (hu : normalize_url (sTrim href) (extract_base_url url) = u)
    (hv : is_valid_url u = true)
    (hni : u ∉ st.internal_links) (hne : u ∉ st.external_links) :
    (u ∈ (scrape_page env st url).internal_links ↔
      is_internal_link u (netlocOf (extract_base_url url)) = true) ∧
    (u ∈ (scrape_page env st url).external_links ↔
      is_internal_link u (netlocOf (extract_base_url url)) = false) ∧
    is_internal_link u (netlocOf (extract_base_url url)) =
      ((netlocOf u = netlocOf (extract_base_url url)) ||
        sEndsWith (netlocOf u) ("." ++ netlocOf (extract_base_url url))) := by
  have hcomp := scrape_page_complete_mem env st url href u hnv hflag hok hct
    hpr hlinks hmem h1 h2 h3 hu hv
  refine ⟨⟨?_, hcomp.2.1⟩, ⟨?_, hcomp.2.2⟩, rfl⟩
  · intro hx
    rcases (scrape_page_sound env st url).2.1 hx with h | h
    · exact absurd h hni
    · exact h.2
  · intro hx
    rcases (scrape_page_sound env st url).2.2.1 hx with h | h
    · exact absurd h hne
    · exact h.2

theorem C4_witness :
    ("https://example.com/a" ∈
        (scrape_page envW (initState "https://example.com")
          "https://example.com").internal_links ↔
      is_internal_link "https://example.com/a"
        (netlocOf (extract_base_url "https://example.com")) = true) ∧
    ("https://example.com/a" ∈
        (scrape_page envW (initState "https://example.com")
          "https://example.com").external_links ↔
      is_internal_link "https://example.com/a"
        (netlocOf (extract_base_url "https://example.com")) = false) ∧
    is_internal_link "https://example.com/a"
        (netlocOf (extract_base_url "https://example.com")) =
      ((netlocOf "https://example.com/a" =
          netlocOf (extract_base_url "https://example.com")) ||
        sEndsWith (netlocOf "https://example.com/a")
          ("." ++ netlocOf (extract_base_url "https://example.com"))) :=
  C4_internal_iff envW (initState "https://example.com")
    "https://example.com" "https://example.com/a" "https://example.com/a"
    (by decide) (by decide) (by decide) (by decide) (by decide) (by decide)
    (by decide) (by decide) (by decide) (by decide) (by decide) (by decide)
    (by decide) (by decide)

/-- C5 counterexample: `https://example.com/f.pdf?x=1` has an accepted
scheme and a path ending in the excluded extension `.pdf`, yet
`is_valid_url` accepts it — the deny-list is matched against the end of the
whole URL string, not against the path. -/
theorem C5_counterexample :
    is_valid_url "https://example.com/f.pdf?x=1" = true ∧
    sStartsWith "https://example.com/f.pdf?x=1" "https://" = true ∧
    pathOf "https://example.com/f.pdf?x=1" = "/f.pdf" ∧
    pathEndsExcluded "https://example.com/f.pdf?x=1" = true ∧
    is_valid_url "https://example.com/page?x=.pdf" = false ∧
    sStartsWith "https://example.com/page?x=.pdf" "https://" = true ∧
    pathOf "https://example.com/page?x=.pdf" = "/page" ∧
    pathEndsExcluded "https://example.com/page?x=.pdf" = false := by
  decide

/-- C5 (amended): a URL is accepted exactly when it starts with `http://`
or `https://` and its lowercased *full text* does not end in an excluded
extension; every URL in the queue or the link collections of a run with a
valid seed is accepted. -/
theorem C5_valid_urls (env : Env) (seed : String) (n : Nat)
    (hseed : is_valid_url seed = true) :
    (∀ u : String, is_valid_url u = true ↔
      ((sStartsWith u "http://" = true ∨ sStartsWith u "https://" = true) ∧
        ∀ ext ∈ unwanted_exts, sEndsWith (sLower u) ext = false)) ∧
    (∀ u : String,
      (u ∈ (steps env seed n).queue ∨ u ∈ (steps env seed n).links ∨
        u ∈ (steps env seed n).internal_links ∨
        u ∈ (steps env seed n).external_links) →
      is_valid_url u = true) := by
  constructor
  · intro u
    constructor
    · intro hv
      unfold is_valid_url at hv
      split at hv
      · cases hv
      · rename_i hsch
        split at hv
        · cases hv
        · rename_i hext
          refine ⟨?_, ?_⟩
          · have hab : (sStartsWith u "http://" ||
                sStartsWith u "https://") = true := by
              cases hx : (sStartsWith u "http://" || sStartsWith u "https://")
              · refine absurd ?_ hsch
                rw [hx]
                rfl
              · rfl
            rw [Bool.or_eq_true] at hab
            exact hab
          · intro ext hm
            by_contra hne
            have hT : sEndsWith (sLower u) ext = true := by simpa using hne
            exact hext (List.any_eq_true.mpr ⟨ext, hm, hT⟩)
    · rintro ⟨hsch, hext⟩
      unfold is_valid_url
      have hcond1 :
          ¬((!(sStartsWith u "http://" || sStartsWith u "https://")) = true) := by
        rcases hsch with h | h <;> simp [h]
      have hcond2 :
          ¬(unwanted_exts.any (fun ext => sEndsWith (sLower u) ext) = true) := by
        intro hany
        obtain ⟨ext, hm, hp⟩ := List.any_eq_true.mp hany
        have hf := hext ext hm
        rw [hf] at hp
        cases hp
      rw [if_neg hcond1, if_neg hcond2]
  · intro u hu
    obtain ⟨q, l, i, e⟩ := steps_valid env seed hseed n
    rcases hu with h | h | h | h
    · exact q u h
    · exact l u h
    · exact i u h
    · exact e u h

theorem C5_witness :
    (∀ u : String, is_valid_url u = true ↔
      ((sStartsWith u "http://" = true ∨ sStartsWith u "https://" = true) ∧
        ∀ ext ∈ unwanted_exts, sEndsWith (sLower u) ext = false)) ∧
    (∀ u : String,
      (u ∈ (steps envW "https://example.com" 1).queue ∨
        u ∈ (steps envW "https://example.com" 1).links ∨
        u ∈ (steps envW "https://example.com" 1).internal_links ∨
        u ∈ (steps envW "https://example.com" 1).external_links) →
      is_valid_url u = true) :=
  C5_valid_urls envW "https://example.com" 1 (by decide)

/-- C6: a response whose `Content-Type` does not start with `text/html` is
dropped after the byte accounting: no extraction output, no error entry, no
event, queue untouched, `visited_pages` untouched; and in general the
counter moves only (by exactly one) for pages that complete the HTML
extraction path. -/
theorem C6_nonhtml_skipped (env : Env) (st : ScrapeState) (url : String)
    (hnv : url ∉ st.visited_urls)
    (hflag : runningFlag env.stopClock st.clock = true)
    (hok : (env.web url).failedAttempts < 3)
    (hct : sStartsWith (env.web url).resp.contentType "text/html" = false) :
    scrape_page env st url = afterFetch (markVisited st url) (env.web url) ∧
    (scrape_page env st url).errors = st.errors ∧
    (scrape_page env st url).links = st.links ∧
    (scrape_page env st url).internal_links = st.internal_links ∧
    (scrape_page env st url).external_links = st.external_links ∧
    (scrape_page env st url).images = st.images ∧
    (scrape_page env st url).queue = st.queue ∧
    (scrape_page env st url).visited_pages = st.visited_pages ∧
    (scrape_page env st url).errorEvents = st.errorEvents ∧
    (∀ (st2 : ScrapeState) (url2 : String),
      (scrape_page env st2 url2).visited_pages ≠ st2.visited_pages →
        ((env.web url2).failedAttempts < 3 ∧
          sStartsWith (env.web url2).resp.contentType "text/html" = true ∧
          (env.web url2).resp.doc.parseRaises = false ∧
          (env.opts.extract_images &&
            (env.web url2).resp.doc.imgRaises) = false ∧
          url2 ∉ st2.visited_urls ∧
          runningFlag env.stopClock st2.clock = true ∧
          (scrape_page env st2 url2).visited_pages =
            st2.visited_pages + 1)) := by
  rw [scrape_page_nonhtml_eq env st url hnv hflag hok hct]
  refine ⟨rfl, rfl, rfl, rfl, rfl, rfl, rfl, rfl, rfl, ?_⟩
  intro st2 url2 hne
  rcases scrape_page_pages_char env st2 url2 with h |
    ⟨heq1, hnv2, hflag2, hfa2, hct2, hpr2, himg2⟩
  · exact absurd h hne
  · exact ⟨hfa2, hct2, hpr2, himg2, hnv2, hflag2, heq1⟩

theorem C6_witness :
    scrape_page envW (initState "https://example.com/data")
        "https://example.com/data" =
      afterFetch (markVisited (initState "https://example.com/data")
        "https://example.com/data") (envW.web "https://example.com/data") ∧
    (scrape_page envW (initState "https://example.com/data")
      "https://example.com/data").errors = [] ∧
    (scrape_page envW (initState "https://example.com/data")
      "https://example.com/data").links = [] ∧
    (scrape_page envW (initState "https://example.com/data")
      "https://example.com/data").internal_links = [] ∧
    (scrape_page envW (initState "https://example.com/data")
      "https://example.com/data").external_links = [] ∧
    (scrape_page envW (initState "https://example.com/data")
      "https://example.com/data").images = [] ∧
    (scrape_page envW (initState "https://example.com/data")
      "https://example.com/data").queue =
      (initState "https://example.com/data").queue ∧
    (scrape_page envW (initState "https://example.com/data")
      "https://example.com/data").visited_pages = 0 ∧
    (scrape_page envW (initState "https://example.com/data")
      "https://example.com/data").errorEvents = [] ∧
    (∀ (st2 : ScrapeState) (url2 : String),
      (scrape_page envW st2 url2).visited_pages ≠ st2.visited_pages →
        ((envW.web url2).failedAttempts < 3 ∧
          sStartsWith (envW.web url2).resp.contentType "text/html" = true ∧
          (envW.web url2).resp.doc.parseRaises = false ∧
          (envW.opts.extract_images &&
            (envW.web url2).resp.doc.imgRaises) = false ∧
          url2 ∉ st2.visited_urls ∧
          runningFlag envW.stopClock st2.clock = true ∧
          (scrape_page envW st2 url2).visited_pages =
            st2.visited_pages + 1)) :=
  C6_nonhtml_skipped envW (initState "https://example.com/data")
    "https://example.com/data" (by decide) (by decide) (by decide) (by decide)

/-- C7 counterexample: on a page whose image-extraction step raises, the
exception is caught and an error *event* is emitted, but no entry is
appended to the result's error list (which the claim asserts); the link
extracted before the exception is kept. -/
theorem C7_counterexample :
    (scrape_page envW (initState "https://example.com/boom")
      "https://example.com/boom").errorEvents =
      ["Error scraping https://example.com/boom: soup broke"] ∧
    (scrape_page envW (initState "https://example.com/boom")
      "https://example.com/boom").errors = [] ∧
    "https://example.com/kept" ∈
      (scrape_page envW (initState "https://example.com/boom")
        "https://example.com/boom").links := by
  decide

/-- C7 (amended): a per-page exception raised during extraction after a
successful fetch is caught; an error event is emitted to the caller but no
entry is appended to the result's error list; the partial extraction
results accumulated before the exception are kept; and the crawl loop
proceeds with the queue advanced past the page (plus any links it
enqueued). -/
theorem C7_extraction_exception (env : Env) (st : ScrapeState) (url : String)
    (hnv : url ∉ st.visited_urls)
    (hflag : runningFlag env.stopClock st.clock = true)
    (hok : (env.web url).failedAttempts < 3)
    (hct : sStartsWith (env.web url).resp.contentType "text/html" = true)
    (hpr : (env.web url).resp.doc.parseRaises = false)
    (himg : (env.opts.extract_images &&
      (env.web url).resp.doc.imgRaises) = true) :
    (scrape_page env st url).errors = st.errors ∧
    (scrape_page env st url).errorEvents = st.errorEvents ++
      ["Error scraping " ++ url ++ ": " ++ (env.web url).resp.doc.excMsg] ∧
    (scrape_page env st url).visited_pages = st.visited_pages ∧
    (scrape_page env st url).total_data_size =
      st.total_data_size + (env.web url).resp.contentLen ∧
    (∀ href u, env.opts.extract_links = true →
      href ∈ (env.web url).resp.doc.hrefs → sTrim href ≠ "" →
      sStartsWith (sTrim href) "javascript:" = false →
      sStartsWith (sTrim href) "#" = false →
      normalize_url (sTrim href) (extract_base_url url) = u →
      is_valid_url u = true →
      u ∈ (scrape_page env st url).links) ∧
    (∀ (s : ScrapeState) (rest : List String), s.queue = url :: rest →
      runningFlag env.stopClock s.clock = true →
      s.visited_urls.length < env.opts.max_pages →
      ∃ enq, (loopStep env s).queue = rest ++ enq) := by
  have heq := scrape_page_imgexc_eq env st url hnv hflag hok hct hpr himg
  have hlf := linksStep_frame env.opts (extract_base_url url)
    (netlocOf (extract_base_url url)) (env.web url).resp.doc
    (afterFetch (markVisited st url) (env.web url))
  refine ⟨?_, ?_, ?_, ?_, ?_, ?_⟩
  · rw [heq]
    exact hlf.2.2.2.2.1
  · rw [heq, scrapeExc_errorEvents, hlf.2.2.2.2.2.1]
    rfl
  · rw [heq]
    exact hlf.2.2.1
  · rw [heq]
    exact hlf.2.2.2.1
  · intro href u hlinks hmem h1 h2 h3 hu hv
    exact (scrape_page_complete_mem env st url href u hnv hflag hok hct hpr
      hlinks hmem h1 h2 h3 hu hv).1
  · intro s rest hq hflag1 hlen
    rw [loopStep_proc_eq env s url rest hq hflag1 hlen]
    exact scrape_page_queue_extend env _ url

theorem C7_witness :
    (scrape_page envW (initState "https://example.com/boom")
      "https://example.com/boom").errors =
      (initState "https://example.com/boom").errors ∧
    (scrape_page envW (initState "https://example.com/boom")
      "https://example.com/boom").errorEvents =
      (initState "https://example.com/boom").errorEvents ++
      ["Error scraping " ++ "https://example.com/boom" ++ ": " ++
        (envW.web "https://example.com/boom").resp.doc.excMsg] ∧
    (scrape_page envW (initState "https://example.com/boom")
      "https://example.com/boom").visited_pages =
      (initState "https://example.com/boom").visited_pages ∧
    (scrape_page envW (initState "https://example.com/boom")
      "https://example.com/boom").total_data_size =
      (initState "https://example.com/boom").total_data_size +
        (envW.web "https://example.com/boom").resp.contentLen ∧
    (∀ href u, envW.opts.extract_links = true →
      href ∈ (envW.web "https://example.com/boom").resp.doc.hrefs →
      sTrim href ≠ "" →
      sStartsWith (sTrim href) "javascript:" = false →
      sStartsWith (sTrim href) "#" = false →
      normalize_url (sTrim href)
        (extract_base_url "https://example.com/boom") = u →
      is_valid_url u = true →
      u ∈ (scrape_page envW (initState "https://example.com/boom")
        "https://example.com/boom").links) ∧
    (∀ (s : ScrapeState) (rest : List String),
      s.queue = "https://example.com/boom" :: rest →
      runningFlag envW.stopClock s.clock = true →
      s.visited_urls.length < envW.opts.max_pages →
      ∃ enq, (loopStep envW s).queue = rest ++ enq) :=
  C7_extraction_exception envW (initState "https://example.com/boom")
    "https://example.com/boom" (by decide) (by decide) (by decide)
    (by decide) (by decide) (by decide)

/-- C8: `download_file` never overwrites an existing file: the name chosen
for a download is never one already present in the destination directory,
so two successive downloads — in particular two assets resolving to the
same basename — yield two distinct files. -/
theorem C8_download_no_overwrite (dir : Finset String) (u1 s1 u2 s2 : String) :
    (download_file dir u1 s1).1 ∉ dir ∧
    (download_file (download_file dir u1 s1).2 u2 s2).1 ∉
      (download_file dir u1 s1).2 ∧
    (download_file (download_file dir u1 s1).2 u2 s2).1 ≠
      (download_file dir u1 s1).1 ∧
    (∀ (d : Finset String) (orig : String), resolveCollision d orig ∉ d) := by
  have h1 : (download_file dir u1 s1).1 ∉ dir := resolveCollision_not_mem dir _
  have h2 : (download_file (download_file dir u1 s1).2 u2 s2).1 ∉
      (download_file dir u1 s1).2 := resolveCollision_not_mem _ _
  refine ⟨h1, h2, ?_, fun d orig => resolveCollision_not_mem d orig⟩
  intro he
  apply h2
  rw [he]
  exact Finset.mem_insert_self _ _

theorem C8_witness :
    (download_file (∅ : Finset String) "https://example.com/pic.jpg"
      "image_1.jpg").1 ∉ (∅ : Finset String) ∧
    (download_file (download_file (∅ : Finset String)
        "https://example.com/pic.jpg" "image_1.jpg").2
      "https://cdn.other.com/pic.jpg" "image_2.jpg").1 ∉
      (download_file (∅ : Finset String) "https://example.com/pic.jpg"
        "image_1.jpg").2 ∧
    (download_file (download_file (∅ : Finset String)
        "https://example.com/pic.jpg" "image_1.jpg").2
      "https://cdn.other.com/pic.jpg" "image_2.jpg").1 ≠
      (download_file (∅ : Finset String) "https://example.com/pic.jpg"
        "image_1.jpg").1 ∧
    (∀ (d : Finset String) (orig : String), resolveCollision d orig ∉ d) :=
  C8_download_no_overwrite ∅ "https://example.com/pic.jpg" "image_1.jpg"
    "https://cdn.other.com/pic.jpg" "image_2.jpg"

/-- C9: cancellation is cooperative: once the `while` check reads the stop
flag as `False` the run is over — every later state equals the state at
that point (no further fetch is started, visited set and results are left
exactly as they were); and a stop observed at the `scrape_page`-entry check
drops the popped URL without fetching or recording anything. -/
theorem C9_stop_freezes (env : Env) (seed : String) (n : Nat)
    (hstop : runningFlag env.stopClock (steps env seed n).clock = false) :
    (∀ m, n ≤ m → steps env seed m = steps env seed n) ∧
    (∀ m, n ≤ m →
      (steps env seed m).fetchAttempts = (steps env seed n).fetchAttempts ∧
      (steps env seed m).visited_urls = (steps env seed n).visited_urls ∧
      (steps env seed m).links = (steps env seed n).links ∧
      (steps env seed m).errors = (steps env seed n).errors ∧
      (steps env seed m).visited_pages = (steps env seed n).visited_pages) ∧
    (∀ (s : ScrapeState) (u : String) (rest : List String),
      s.queue = u :: rest →
      runningFlag env.stopClock s.clock = true →
      s.visited_urls.length < env.opts.max_pages →
      u ∉ s.visited_urls →
      runningFlag env.stopClock (s.clock + 1) = false →
      loopStep env s = { s with queue := rest, clock := s.clock + 2 }) := by
  have hle : env.stopClock ≤ (steps env seed n).clock := by
    simpa [runningFlag] using hstop
  have hfr := steps_frozen env seed n hle
  refine ⟨hfr, ?_, ?_⟩
  · intro m hm
    rw [hfr m hm]
    exact ⟨rfl, rfl, rfl, rfl, rfl⟩
  · intro s u rest hq hflag1 hlen hnv hflag2
    rw [loopStep_proc_eq env s u rest hq hflag1 hlen,
      scrape_page_stop_eq env { s with queue := rest, clock := s.clock + 1 }
        u hnv hflag2]

theorem C9_witness :
    (∀ m, 0 ≤ m → steps envS "https://example.com" m =
      steps envS "https://example.com" 0) ∧
    (∀ m, 0 ≤ m →
      (steps envS "https://example.com" m).fetchAttempts =
        (steps envS "https://example.com" 0).fetchAttempts ∧
      (steps envS "https://example.com" m).visited_urls =
        (steps envS "https://example.com" 0).visited_urls ∧
      (steps envS "https://example.com" m).links =
        (steps envS "https://example.com" 0).links ∧
      (steps envS "https://example.com" m).errors =
        (steps envS "https://example.com" 0).errors ∧
      (steps envS "https://example.com" m).visited_pages =
        (steps envS "https://example.com" 0).visited_pages) ∧
    (∀ (s : ScrapeState) (u : String) (rest : List String),
      s.queue = u :: rest →
      runningFlag envS.stopClock s.clock = true →
      s.visited_urls.length < envS.opts.max_pages →
      u ∉ s.visited_urls →
      runningFlag envS.stopClock (s.clock + 1) = false →
      loopStep envS s = { s with queue := rest, clock := s.clock + 2 }) :=
  C9_stop_freezes envS "https://example.com" 0 (by decide)

/-- C10: a fetch that succeeds within the retry budget adds exactly the
byte length of the response body to `total_data_size` — also for non-HTML
responses, which nevertheless leave `visited_pages` and the link
collections untouched. -/
theorem C10_data_size (env : Env) (st : ScrapeState) (url : String)
    (hnv : url ∉ st.visited_urls)
    (hflag : runningFlag env.stopClock st.clock = true)
    (hok : (env.web url).failedAttempts < 3) :
    (scrape_page env st url).total_data_size =
      st.total_data_size + (env.web url).resp.contentLen ∧
    (sStartsWith (env.web url).resp.contentType "text/html" = false →
      (scrape_page env st url).visited_pages = st.visited_pages ∧
      (scrape_page env st url).links = st.links) := by
  constructor
  · by_cases hct :
        sStartsWith (env.web url).resp.contentType "text/html" = true
    · by_cases hpr : (env.web url).resp.doc.parseRaises = true
      · rw [scrape_page_parseexc_eq env st url hnv hflag hok hct hpr]
        rfl
      · have hprf : (env.web url).resp.doc.parseRaises = false := by
          simpa using hpr
        by_cases himg : (env.opts.extract_images &&
            (env.web url).resp.doc.imgRaises) = true
        · rw [scrape_page_imgexc_eq env st url hnv hflag hok hct hprf himg]
          exact (linksStep_frame env.opts (extract_base_url url)
            (netlocOf (extract_base_url url)) (env.web url).resp.doc
            (afterFetch (markVisited st url) (env.web url))).2.2.2.1
        · have himgf : (env.opts.extract_images &&
              (env.web url).resp.doc.imgRaises) = false := by
            simpa using himg
          rw [scrape_page_extract_eq env st url hnv hflag hok hct hprf himgf]
          show (imagesStep env.opts (extract_base_url url)
            (env.web url).resp.doc
            (linksStep env.opts (extract_base_url url)
              (netlocOf (extract_base_url url)) (env.web url).resp.doc
              (afterFetch (markVisited st url)
                (env.web url)))).total_data_size =
            st.total_data_size + (env.web url).resp.contentLen
          rw [(imagesStep_frame env.opts (extract_base_url url)
            (env.web url).resp.doc
            (linksStep env.opts (extract_base_url url)
              (netlocOf (extract_base_url url)) (env.web url).resp.doc
              (afterFetch (markVisited st url)
                (env.web url)))).2.2.2.2.2.2.1,
            (linksStep_frame env.opts (extract_base_url url)
              (netlocOf (extract_base_url url)) (env.web url).resp.doc
              (afterFetch (markVisited st url) (env.web url))).2.2.2.1]
          rfl
    · have hctf : sStartsWith (env.web url).resp.contentType "text/html"
          = false := by simpa using hct
      rw [scrape_page_nonhtml_eq env st url hnv hflag hok hctf]
      rfl
  · intro hctf
    rw [scrape_page_nonhtml_eq env st url hnv hflag hok hctf]
    exact ⟨rfl, rfl⟩

theorem C10_witness :
    (scrape_page envW (initState "https://example.com/data")
      "https://example.com/data").total_data_size =
      (initState "https://example.com/data").total_data_size +
        (envW.web "https://example.com/data").resp.contentLen ∧
    (sStartsWith (envW.web "https://example.com/data").resp.contentType
        "text/html" = false →
      (scrape_page envW (initState "https://example.com/data")
        "https://example.com/data").visited_pages =
        (initState "https://example.com/data").visited_pages ∧
      (scrape_page envW (initState "https://example.com/data")
        "https://example.com/data").links =
        (initState "https://example.com/data").links) :=
  C10_data_size envW (initState "https://example.com/data")
    "https://example.com/data" (by decide) (by decide) (by decide)

theorem C3_witness :
    (loopStep envW (initState "https://example.com/bad")).errors =
      [] ++ ["Error accessing " ++ "https://example.com/bad" ++ ": " ++
        (envW.web "https://example.com/bad").errMsg] ∧
    (loopStep envW (initState "https://example.com/bad")).networkErrorEvents =
      [] ++ [("https://example.com/bad",
        (envW.web "https://example.com/bad").errMsg)] ∧
    (loopStep envW (initState "https://example.com/bad")).visited_pages = 0 ∧
    (loopStep envW (initState "https://example.com/bad")).fetchAttempts =
      0 + 3 ∧
    (loopStep envW (initState "https://example.com/bad")).queue = [] ∧
    (loopStep envW (initState "https://example.com/bad")).links = [] ∧
    (loopStep envW (initState "https://example.com/bad")).internal_links = [] ∧
    (loopStep envW (initState "https://example.com/bad")).external_links = [] ∧
    (loopStep envW (initState "https://example.com/bad")).images = [] ∧
    (loopStep envW (initState "https://example.com/bad")).total_data_size = 0 ∧
    (∀ (st2 : ScrapeState) (u2 : String),
      (scrape_page envW st2 u2).fetchAttempts ≤ st2.fetchAttempts + 3) :=
  C3_retry_abandons envW (initState "https://example.com/bad")
    "https://example.com/bad" [] rfl (by decide) (by decide) (by decide)
    (by decide) (by decide)

end WebScraper
